import Mathlib

/-!
Verification of the standup-bot repository core against its specification.

The Go sources are shallowly embedded.  Multi-line text (file contents,
builders) is represented by its list of lines: a Go string `s` corresponds
to the list `strings.Split(s, "\n")`, so the empty file content corresponds
to `[""]`.  Go byte-level string primitives (`strings.HasPrefix`,
`strings.Contains`, `strings.TrimSpace`, ...) are modelled at character
level on `String.data`.
-/

/-- Model of Go `strings.HasPrefix`. -/
def strStartsWith (s pre : String) : Bool := pre.data.isPrefixOf s.data

/-- Model of Go `strings.Contains` (substring test). -/
def strContains (s sub : String) : Bool := decide (sub.data <:+: s.data)

/-- Model of Go `strings.TrimLeft` over whitespace (the leading half of `strings.TrimSpace`). -/
def strTrimLeft (s : String) : String := ⟨s.data.dropWhile Char.isWhitespace⟩

/-- Model of the trailing half of Go `strings.TrimSpace`. -/
def strTrimRight (s : String) : String := ⟨(s.data.reverse.dropWhile Char.isWhitespace).reverse⟩

/-- Model of Go `strings.TrimSpace`. -/
def strTrimSpace (s : String) : String := strTrimRight (strTrimLeft s)

/-- Model of Go `strings.ToLower` (character-wise; the sources only feed it ASCII). -/
def strToLower (s : String) : String := ⟨s.data.map Char.toLower⟩

/-- Model of Go `strings.TrimSuffix`: removes at most one copy of the suffix. -/
def strTrimSuffix (s suf : String) : String :=
  if suf.data.isSuffixOf s.data then ⟨s.data.take (s.data.length - suf.data.length)⟩ else s

/-- The apostrophe character, as a string. -/
def apos : String := (Char.ofNat 39).toString

namespace Standup

/-- Model of `standup.Entry`.  The Go field `Date` is a `time.Time`; every use in the
merge/format code is through `Date.Format("2006-01-02")`, so the model carries the
formatted `YYYY-MM-DD` token directly.  `yesterday`/`today` items and `blockers`
are single lines. -/
structure Entry where
  date : String
  yesterday : List String
  today : List String
  blockers : String
deriving DecidableEq, Repr

/-- The fixed possessive header suffix (Go literal within `"# %s's Standups"`). -/
def headerMark : String := apos ++ "s Standups"

/-- Model of `Manager.formatSection`: one labelled bullet list (or the default bullet)
followed by a blank separator line. -/
def formatSection (title : String) (items : List String) (defaultMsg : String) : List String :=
  ("**" ++ title ++ ":**") ::
    ((if items.isEmpty then ["- " ++ defaultMsg] else items.map (fun item => "- " ++ item)) ++ [""])

/-- Model of `Manager.formatEntry`: the rendered markdown section of one entry,
as its list of lines. -/
def formatEntry (e : Entry) : List String :=
  ("## " ++ e.date) :: "" ::
    (formatSection "Yesterday" e.yesterday "Nothing to report" ++
     formatSection "Today" e.today "Nothing planned" ++
     ["**Blockers:**", e.blockers, "", "---"])

/-- Model of `entryParser.isHeader`. -/
def isHeader (line : String) : Bool :=
  strStartsWith line "# " && strContains line headerMark

/-- Model of `entryParser.isTodayEntry`: a level-2 heading line containing the date token. -/
def isTodayEntry (dateStr line : String) : Bool :=
  strStartsWith line "## " && strContains line dateStr

/-- Model of `entryParser.isEntryEnd`. -/
def isEntryEnd (line : String) : Bool :=
  line == "---" || strStartsWith line "## "

/-- Model of `parseState` (Go mutable struct threaded through `processLine`). -/
structure ParseState where
  currentEntry : List String
  inTodayEntry : Bool
  headerFound : Bool
deriving DecidableEq, Repr

/-- Model of `parsedStandupContent`.  `otherEntries` holds retained blocks as
line lists (each the lines of the corresponding Go string). -/
structure ParsedStandupContent where
  header : String
  otherEntries : List (List String)
deriving DecidableEq, Repr

/-- Model of `entryParser.shouldSkipLine`. -/
def shouldSkipLine (line : String) (index total : Nat) (st : ParseState) : Bool :=
  st.headerFound && decide (index < total - 1) && (strTrimSpace line == "") && !st.inTodayEntry

/-- Model of `entryParser.processLine`. -/
def processLine (dateStr line : String) (index total : Nat)
    (st : ParseState) (res : ParsedStandupContent) : ParseState × ParsedStandupContent :=
  if isHeader line && !st.headerFound then
    ({ st with headerFound := true }, { res with header := line })
  else if shouldSkipLine line index total st then (st, res)
  else if isTodayEntry dateStr line then ({ st with inTodayEntry := true }, res)
  else
    let endNow := st.inTodayEntry && isEntryEnd line
    let st1 := if endNow then { st with inTodayEntry := false } else st
    if endNow && line == "---" then (st1, res)
    else if !st1.inTodayEntry && st1.headerFound then
      ({ st1 with currentEntry := st1.currentEntry ++ [line] }, res)
    else (st1, res)

/-- Model of `strings.TrimSpace` applied to the accumulated block builder, at line
granularity: leading whitespace of the joined string consists of whole blank lines plus
the leading whitespace of the first non-blank line, and symmetrically at the end
(the builder always terminates each line with a newline). -/
def trimBlock (ls : List String) : List String :=
  match ls.dropWhile (fun l => strTrimSpace l == "") with
  | [] => []
  | f :: rest =>
    match rest.reverse.dropWhile (fun l => strTrimSpace l == "") with
    | [] => [strTrimSpace f]
    | lastL :: revMid => strTrimLeft f :: (strTrimRight lastL :: revMid).reverse

/-- Model of `entryParser.finalizeEntry`. -/
def finalizeEntry (st : ParseState) (res : ParsedStandupContent) : ParsedStandupContent :=
  if st.currentEntry.length > 0 then
    { res with otherEntries := res.otherEntries ++ [trimBlock st.currentEntry] }
  else res

/-- The loop body of `entryParser.parse` (`for i, line := range lines`). -/
def parseLines (dateStr : String) (total : Nat) :
    Nat → List String → ParseState × ParsedStandupContent → ParseState × ParsedStandupContent
  | _, [], acc => acc
  | index, line :: rest, acc =>
    parseLines dateStr total (index + 1) rest (processLine dateStr line index total acc.1 acc.2)

/-- Model of `entryParser.parse`. -/
def parse (dateStr : String) (lines : List String) : ParsedStandupContent :=
  let out := parseLines dateStr lines.length 0 lines
    (⟨[], false, false⟩, ⟨"", []⟩)
  finalizeEntry out.1 out.2

/-- Model of `Manager.assembleContent`: header line, blank line, the new entry,
one more blank line, then each retained non-empty block. -/
def assembleContent (parsed : ParsedStandupContent) (e : Entry) (userName : String) :
    List String :=
  (if parsed.header != "" then parsed.header else "# " ++ userName ++ headerMark) ::
    "" :: (formatEntry e ++ [""] ++ (parsed.otherEntries.filter (fun b => b != [])).flatten ++ [""])

/-- Model of `Manager.buildNewFileContent`. -/
def buildNewFileContent (e : Entry) (userName : String) : List String :=
  ("# " ++ userName ++ headerMark) :: "" :: (formatEntry e ++ ["", ""])

/-- Model of `Manager.buildUpdatedContent`.  The existing file content is its list of
lines; the empty content (missing file) is `[""]`. -/
def buildUpdatedContent (existingLines : List String) (e : Entry) (userName : String) :
    List String :=
  if existingLines == [""] then buildNewFileContent e userName
  else assembleContent (parse e.date existingLines) e userName

/-- Model of `Manager.GetStandupFilePath`; `filepath.Join` is modelled as
separator concatenation. -/
def GetStandupFilePath (repoPath userName : String) : String :=
  repoPath ++ "/stand-ups/" ++ strToLower userName ++ ".md"

end Standup

namespace Standup

/-- Model of `standup.JSONInput` (the decoded JSON object; JSON decoding itself and the
string/file/stdin source selection are I/O and are not modelled). -/
structure JSONInput where
  yesterday : List String
  today : List String
  blockers : String
deriving DecidableEq, Repr

/-- Model of the validation/construction part of `standup.ParseJSONInput`.  The entry
date is `time.Now()` at construction; the model receives its formatted value as `now`. -/
def ParseJSONInput (input : JSONInput) (now : String) : Except String Entry :=
  if input.yesterday.isEmpty && input.today.isEmpty then
    .error ("at least one of " ++ apos ++ "yesterday" ++ apos ++ " or " ++ apos ++
      "today" ++ apos ++ " must have entries")
  else
    let blockers := if input.blockers == "" then "None" else input.blockers
    .ok { date := now, yesterday := input.yesterday, today := input.today,
          blockers := blockers }

end Standup

namespace GitPkg

/-- Model of `git.CommitDetails` (dates kept as formatted strings). -/
structure CommitDetails where
  sha : String
  author : String
  date : String
  message : String
  subject : String
  body : String
deriving DecidableEq, Repr

/-- The skip patterns of `git.isSkippableCommit`. -/
def skipPatterns : List String :=
  ["merge", "wip", "tmp", "temp", "fix typo", "update readme", "initial commit"]

/-- Model of `git.isSkippableCommit`. -/
def isSkippableCommit (subject : String) : Bool :=
  skipPatterns.any (fun pattern => strContains (strToLower subject) pattern)

/-- The conventional-commit type markers of `git.formatCommitAsWorkItem`. -/
def commitTypeMarkers : List String :=
  ["feat:", "fix:", "docs:", "style:", "refactor:", "test:", "chore:", "perf:",
   "ci:", "build:", "revert:"]

/-- Model of the first-letter capitalisation in `git.formatCommitAsWorkItem`
(`strings.ToUpper(subject[:1]) + subject[1:]`). -/
def capitalizeFirst (s : String) : String :=
  match s.data with
  | [] => s
  | c :: cs => ⟨Char.toUpper c :: cs⟩

/-- Model of `git.formatCommitAsWorkItem`: drop the first matching type marker and
trim the remainder, capitalise, drop one trailing period. -/
def formatCommitAsWorkItem (commit : CommitDetails) : String :=
  let subject :=
    match commitTypeMarkers.find? (fun p => strStartsWith (strToLower commit.subject) p) with
    | some p => strTrimSpace ⟨commit.subject.data.drop p.data.length⟩
    | none => commit.subject
  strTrimSuffix (capitalizeFirst subject) "."

/-- Model of `git.deduplicateItems` (the Go `seen` map becomes a list of keys). -/
def deduplicateItems (items : List String) : List String :=
  (items.foldl
    (fun (acc : List String × List String) item =>
      let normalized := strToLower (strTrimSpace item)
      if acc.1.contains normalized then acc
      else (acc.1 ++ [normalized], acc.2 ++ [item]))
    ([], [])).2

/-- Model of `git.ExtractWorkItems`. -/
def ExtractWorkItems (commits : List CommitDetails) : List String :=
  deduplicateItems
    (((commits.filter (fun c => !isSkippableCommit c.subject)).map formatCommitAsWorkItem).filter
      (fun item => item != ""))

/-- Days of the week, mirroring Go `time.Weekday` (Sunday = 0). -/
inductive Weekday
  | sunday | monday | tuesday | wednesday | thursday | friday | saturday
deriving DecidableEq, Repr

/-- Weekday of a day number (days since an epoch falling on a Sunday); model of
Go `time.Time.Weekday`. -/
def weekdayOf (d : Int) : Weekday :=
  match (d % 7).toNat with
  | 0 => .sunday
  | 1 => .monday
  | 2 => .tuesday
  | 3 => .wednesday
  | 4 => .thursday
  | 5 => .friday
  | _ => .saturday

/-- Model of `git.GetLastWorkingDay`; dates are day numbers and
`AddDate(0, 0, -n)` is subtraction of `n` days. -/
def GetLastWorkingDay («from» : Int) : Int :=
  match weekdayOf «from» with
  | .monday => «from» - 3
  | .sunday => «from» - 2
  | _ => «from» - 1

end GitPkg

namespace GitPkg

/-- The external commands issued by `git.Client` (each constructor is one concrete
command line; `origin` and flag spellings are fixed in the Go sources). -/
inductive GitCmd
  | fetchAll
  | branchList (name : String)
  | lsRemoteHeads (name : String)
  | checkout (name : String)
  | checkoutTrack (name : String)
  | checkoutNew (name : String)
  | pull (name : String)
  | pullRebase (name : String)
  | resetHard (name : String)
  | push (name : String)
  | rebaseAbort
  | mergeNoEdit (name : String)
  | addAll
  | statusPorcelain
  | commit (message : String)
  | showCurrentBranch
deriving DecidableEq, Repr

/-- Result of one external command: combined output plus an optional error
(`none` is success); models the `([]byte, error)` pair of `CommandRunner.RunInDir`. -/
structure CmdResult where
  output : String
  err : Option String
deriving DecidableEq, Repr

/-- The external world: the result of the i-th issued command.  Indexing by issue
count lets a repeated command (e.g. a retried push) answer differently. -/
def Env : Type := Nat → GitCmd → CmdResult

/-- The list of commands issued so far. -/
structure Trace where
  cmds : List GitCmd
deriving DecidableEq, Repr

/-- Issue one command: query the environment at the current position and record it. -/
def runCmd (env : Env) (tr : Trace) (c : GitCmd) : CmdResult × Trace :=
  (env tr.cmds.length c, ⟨tr.cmds ++ [c]⟩)

/-- Model of `Client.BranchExists`. -/
def BranchExists (env : Env) (tr : Trace) (branchName : String) : Bool × Trace :=
  let (r, tr) := runCmd env tr (.branchList branchName)
  (r.err.isNone && (strTrimSpace r.output != ""), tr)

/-- Model of `Client.RemoteBranchExists`. -/
def RemoteBranchExists (env : Env) (tr : Trace) (branchName : String) : Bool × Trace :=
  let (r, tr) := runCmd env tr (.lsRemoteHeads branchName)
  (r.err.isNone && (strTrimSpace r.output != ""), tr)

/-- Model of `Client.SwitchToBranch`. -/
def SwitchToBranch (env : Env) (tr : Trace) (branchName : String) :
    Except String Unit × Trace :=
  let (r, tr) := runCmd env tr (.checkout branchName)
  match r.err with
  | none => (.ok (), tr)
  | some e => (.error ("failed to switch to branch: " ++ e ++ "\nOutput: " ++ r.output), tr)

/-- Model of `Client.CreateBranch`. -/
def CreateBranch (env : Env) (tr : Trace) (branchName : String) :
    Except String Unit × Trace :=
  let (r, tr) := runCmd env tr (.checkoutNew branchName)
  match r.err with
  | none => (.ok (), tr)
  | some e => (.error ("failed to create branch: " ++ e ++ "\nOutput: " ++ r.output), tr)

/-- Model of `Client.PullBranch`. -/
def PullBranch (env : Env) (tr : Trace) (branchName : String) :
    Except String Unit × Trace :=
  let (r, tr) := runCmd env tr (.pull branchName)
  match r.err with
  | none => (.ok (), tr)
  | some e => (.error ("failed to pull branch: " ++ e ++ "\nOutput: " ++ r.output), tr)

/-- Model of the private `Client.fetchAll`. -/
def fetchAll (env : Env) (tr : Trace) : Except String Unit × Trace :=
  let (r, tr) := runCmd env tr .fetchAll
  match r.err with
  | none => (.ok (), tr)
  | some e => (.error (e ++ " (output: " ++ r.output ++ ")"), tr)

/-- Model of `Client.CreateOrCheckoutBranch`. -/
def CreateOrCheckoutBranch (env : Env) (tr : Trace) (branchName : String) :
    Except String Unit × Trace :=
  match fetchAll env tr with
  | (.error e, tr) => (.error ("failed to fetch remote branches: " ++ e), tr)
  | (.ok _, tr) =>
    let (localExists, tr) := BranchExists env tr branchName
    if localExists then
      match SwitchToBranch env tr branchName with
      | (.error e, tr) => (.error e, tr)
      | (.ok _, tr) =>
        let (remoteExists, tr) := RemoteBranchExists env tr branchName
        if remoteExists then
          let (r, tr) := runCmd env tr (.pullRebase branchName)
          match r.err with
          | none => (.ok (), tr)
          | some pullErr =>
            let (r2, tr) := runCmd env tr (.resetHard branchName)
            match r2.err with
            | none => (.ok (), tr)
            | some resetErr =>
              (.error ("failed to sync with remote branch: pull error: " ++ pullErr ++
                " (output: " ++ r.output ++ "), reset error: " ++ resetErr ++
                " (output: " ++ r2.output ++ ")"), tr)
        else (.ok (), tr)
    else
      let (remoteExists, tr) := RemoteBranchExists env tr branchName
      if remoteExists then
        let (r, tr) := runCmd env tr (.checkoutTrack branchName)
        match r.err with
        | none => (.ok (), tr)
        | some _ =>
          let (r2, tr) := runCmd env tr (.checkout branchName)
          match r2.err with
          | none => (.ok (), tr)
          | some e2 =>
            (.error ("failed to checkout remote branch: " ++ e2 ++ " (output: " ++
              r.output ++ ", " ++ r2.output ++ ")"), tr)
      else CreateBranch env tr branchName

/-- Model of the private `Client.pushWithUpstream` (the retrying variant of the
current `git` client source). -/
def pushWithUpstream (env : Env) (tr : Trace) (branch : String) :
    Except String Unit × Trace :=
  let (r, tr) := runCmd env tr (.push branch)
  match r.err with
  | none => (.ok (), tr)
  | some e =>
    if !(strContains r.output "non-fast-forward") && !(strContains r.output "rejected") then
      (.error (e ++ " (output: " ++ r.output ++ ")"), tr)
    else
      match fetchAll env tr with
      | (.error fe, tr) => (.error ("failed to fetch during push retry: " ++ fe), tr)
      | (.ok _, tr) =>
        let (pr, tr) := runCmd env tr (.pullRebase branch)
        let next : Except String Unit × Trace :=
          match pr.err with
          | none => (.ok (), tr)
          | some _ =>
            let (_, tr) := runCmd env tr .rebaseAbort
            let (mr, tr) := runCmd env tr (.mergeNoEdit branch)
            match mr.err with
            | none => (.ok (), tr)
            | some me =>
              (.error ("failed to sync before push (tried rebase and merge): pull error: " ++
                pr.output ++ ", merge error: " ++ me ++ " (output: " ++ mr.output ++ ")"), tr)
        match next with
        | (.error e2, tr) => (.error e2, tr)
        | (.ok _, tr) =>
          let (r2, tr) := runCmd env tr (.push branch)
          match r2.err with
          | none => (.ok (), tr)
          | some e2 => (.error ("push failed after sync: " ++ e2 ++ " (output: " ++
              r2.output ++ ")"), tr)

/-- The sentinel `git.ErrNoChangesToCommit`. -/
def ErrNoChangesToCommit : String := "no changes to commit"

/-- Model of `Client.CommitAndPush` (stage, check status, commit, resolve branch,
push with the one scripted retry). -/
def CommitAndPush (env : Env) (tr : Trace) (message : String) :
    Except String Unit × Trace :=
  let (ra, tr) := runCmd env tr .addAll
  match ra.err with
  | some e => (.error ("failed to stage changes: " ++ e ++ " (output: " ++ ra.output ++ ")"), tr)
  | none =>
    let (rs, tr) := runCmd env tr .statusPorcelain
    match rs.err with
    | some e => (.error ("failed to check for changes: " ++ e), tr)
    | none =>
      if strTrimSpace rs.output == "" then (.error ErrNoChangesToCommit, tr)
      else
        let (rc, tr) := runCmd env tr (.commit message)
        match rc.err with
        | some e => (.error ("failed to create commit: " ++ e ++ " (output: " ++
            rc.output ++ ")"), tr)
        | none =>
          let (rb, tr) := runCmd env tr .showCurrentBranch
          match rb.err with
          | some e => (.error ("failed to determine branch: " ++ e), tr)
          | none =>
            let branch := strTrimSpace rb.output
            if branch == "" then
              let (rn, tr) := runCmd env tr (.checkoutNew "main")
              match rn.err with
              | some e => (.error ("failed to determine branch: failed to create main branch: " ++
                  e ++ " (output: " ++ rn.output ++ ")"), tr)
              | none =>
                match pushWithUpstream env tr "main" with
                | (.error e, tr) => (.error ("failed to push to remote: " ++ e), tr)
                | (.ok _, tr) => (.ok (), tr)
            else
              match pushWithUpstream env tr branch with
              | (.error e, tr) => (.error ("failed to push to remote: " ++ e), tr)
              | (.ok _, tr) => (.ok (), tr)

end GitPkg

namespace Commands

open Standup GitPkg

/-- Observable effects of the PR workflow: external git/gh commands and file writes
(file contents as line lists). -/
inductive Effect
  | gitCmd (c : GitCmd)
  | fileWrite (path : String) (content : List String)
  | prUpsert
deriving DecidableEq, Repr

/-- State threaded through the workflow: a name-to-content file system plus the
effect trace.  Filesystem operations are assumed to succeed (the Go error paths
for local storage are not the subject of the workflow claims). -/
structure WorkflowState where
  fs : List (String × List String)
  trace : List Effect
deriving DecidableEq, Repr

/-- Number of git commands issued so far (the environment index). -/
def gitCount (s : WorkflowState) : Nat :=
  (s.trace.filter (fun ef => match ef with | .gitCmd _ => true | _ => false)).length

/-- Issue one git command inside the workflow. -/
def runGit (env : Env) (s : WorkflowState) (c : GitCmd) : CmdResult × WorkflowState :=
  (env (gitCount s) c, { s with trace := s.trace ++ [.gitCmd c] })

/-- Model of `Manager.readExistingContent`: a missing file reads as empty content. -/
def readExistingContent (fs : List (String × List String)) (path : String) : List String :=
  (fs.lookup path).getD [""]

/-- Model of `Manager.SaveEntry` over the workflow file system: read the existing
personal log, merge, write back. -/
def SaveEntry (repoPath : String) (entry : Entry) (userName : String)
    (s : WorkflowState) : WorkflowState :=
  let filePath := GetStandupFilePath repoPath userName
  let newContent := buildUpdatedContent (readExistingContent s.fs filePath) entry userName
  { fs := (filePath, newContent) :: s.fs,
    trace := s.trace ++ [.fileWrite filePath newContent] }

/-- Model of `Client.BranchExists` inside the workflow. -/
def branchExistsW (env : Env) (s : WorkflowState) (branchName : String) :
    Bool × WorkflowState :=
  let (r, s) := runGit env s (.branchList branchName)
  (r.err.isNone && (strTrimSpace r.output != ""), s)

/-- Model of `handleBranchWithOutput` (the PR workflow branch step): switch and pull
when the daily branch already exists locally (a pull failure is only noted), create
it otherwise. -/
def handleBranch (env : Env) (branchName : String) (s : WorkflowState) :
    Except String Unit × WorkflowState :=
  let (exists_, s) := branchExistsW env s branchName
  if exists_ then
    let (r, s) := runGit env s (.checkout branchName)
    match r.err with
    | some e => (.error ("failed to switch to branch: failed to switch to branch: " ++
        e ++ "\nOutput: " ++ r.output), s)
    | none =>
      let (_, s) := runGit env s (.pull branchName)
      (.ok (), s)
  else
    let (r, s) := runGit env s (.checkoutNew branchName)
    match r.err with
    | some e => (.error ("failed to create branch: failed to create branch: " ++
        e ++ "\nOutput: " ++ r.output), s)
    | none => (.ok (), s)

/-- Model of `commitStandupChanges`. -/
def commitStandupChanges (env : Env) (cfgName : String) (entry : Entry)
    (s : WorkflowState) : Except String Unit × WorkflowState :=
  let (ra, s) := runGit env s .addAll
  match ra.err with
  | some e => (.error ("failed to add changes: " ++ e), s)
  | none =>
    let (rc, s) := runGit env s (.commit ("[Standup] " ++ cfgName ++ " - " ++ entry.date))
    match rc.err with
    | some e => (.error ("failed to commit: " ++ e), s)
    | none => (.ok (), s)

/-- The recovery-file path of `saveTempStandup`. -/
def tempStandupPath (userName date : String) : String :=
  "/tmp/standup-" ++ userName ++ "-" ++ date ++ ".txt"

/-- The recovery-file content of `saveTempStandup`, as lines. -/
def tempStandupContent (entry : Entry) (userName : String) : List String :=
  ("Standup for " ++ userName ++ " on " ++ entry.date) :: "" :: "Yesterday:" ::
    (entry.yesterday.map (fun item => "- " ++ item) ++ ["", "Today:"] ++
     entry.today.map (fun item => "- " ++ item) ++ ["", "Blockers:", entry.blockers, ""])

/-- Model of `saveTempStandup`: write the rendered entry to the temporary-storage
path and return that path (the Go code deliberately ignores a write error; the
model records the attempted write). -/
def saveTempStandup (entry : Entry) (userName : String) (s : WorkflowState) :
    String × WorkflowState :=
  let tempFile := tempStandupPath userName entry.date
  let content := tempStandupContent entry userName
  (tempFile, { fs := (tempFile, content) :: s.fs,
               trace := s.trace ++ [.fileWrite tempFile content] })

/-- PR info returned by the workflow. -/
structure PRInfo where
  number : String
  url : String
deriving DecidableEq, Repr

/-- Model of `createOrUpdateStandupPR`.  The final PR-upsert step
(`handlePullRequest`) is beyond the push and is represented by the
environment-supplied outcome `prOutcome` plus a `prUpsert` effect. -/
def createOrUpdateStandupPR (env : Env) (prOutcome : Except String PRInfo)
    (cfgName repoPath : String) (entry : Entry) (s : WorkflowState) :
    Except String PRInfo × WorkflowState :=
  let branchName := "standup/" ++ entry.date
  match handleBranch env branchName s with
  | (.error e, s) => (.error e, s)
  | (.ok _, s) =>
    let s := SaveEntry repoPath entry cfgName s
    match commitStandupChanges env cfgName entry s with
    | (.error e, s) => (.error e, s)
    | (.ok _, s) =>
      let (rp, s) := runGit env s (.push branchName)
      match rp.err with
      | some e =>
        let (tempFile, s) := saveTempStandup entry cfgName s
        (.error ("failed to push changes: failed to push branch: " ++ e ++
          "\nOutput: " ++ rp.output ++ "\nYour standup has been saved to: " ++ tempFile), s)
      | none => (prOutcome, { s with trace := s.trace ++ [.prUpsert] })

end Commands

section StringLemmas

/-- A string has the other as prefix as soon as its character list does. -/
theorem strStartsWith_append (p s : String) : strStartsWith (p ++ s) p = true := by
  simp [strStartsWith, String.data_append, List.isPrefixOf_iff_prefix, List.prefix_append]

/-- Appending on the left preserves prefix tests. -/
theorem strStartsWith_append_assoc (p a b : String) :
    strStartsWith (p ++ a ++ b) p = true := by
  rw [String.append_assoc]; exact strStartsWith_append p (a ++ b)

/-- A middle factor is always contained. -/
theorem strContains_append_middle (a b c : String) : strContains (a ++ b ++ c) b = true := by
  simp only [strContains, String.data_append, decide_eq_true_eq]
  exact ⟨a.data, c.data, by simp⟩

/-- A right factor is always contained. -/
theorem strContains_append_right (a b : String) : strContains (a ++ b) b = true := by
  simp only [strContains, String.data_append, decide_eq_true_eq]
  exact (List.suffix_append a.data b.data).isInfix

/-- A left factor is always contained. -/
theorem strContains_append_left (a b : String) : strContains (a ++ b) a = true := by
  simp only [strContains, String.data_append, decide_eq_true_eq]
  exact (List.prefix_append a.data b.data).isInfix

/-- A line that passes the `"# "` prefix test cannot also pass the `"## "` one. -/
theorem not_strStartsWith_hh_of_h (l : String) (h : strStartsWith l "# " = true) :
    strStartsWith l "## " = false := by
  simp only [strStartsWith, List.isPrefixOf_iff_prefix] at h
  by_contra hc
  rw [Bool.not_eq_false] at hc
  simp only [strStartsWith, List.isPrefixOf_iff_prefix] at hc
  obtain ⟨t1, ht1⟩ := h
  obtain ⟨t2, ht2⟩ := hc
  rw [← ht2] at ht1
  simp at ht1

/-- A header-shaped line is never a date-section heading. -/
theorem isTodayEntry_false_of_header (d l : String) (h : strStartsWith l "# " = true) :
    Standup.isTodayEntry d l = false := by
  simp [Standup.isTodayEntry, not_strStartsWith_hh_of_h l h]

/-- A bullet line is never a date-section heading. -/
theorem isTodayEntry_bullet (d s : String) :
    Standup.isTodayEntry d ("- " ++ s) = false := by
  have hp : strStartsWith ("- " ++ s) "## " = false := by
    simp [strStartsWith, String.data_append, List.isPrefixOf]
  simp [Standup.isTodayEntry, hp]

/-- The freshly rendered heading always matches its own date. -/
theorem isTodayEntry_heading (d : String) :
    Standup.isTodayEntry d ("## " ++ d) = true := by
  simp [Standup.isTodayEntry, strStartsWith_append, strContains_append_right]

/-- The character list of a right trim is a prefix of the original. -/
theorem strTrimRight_data_prefix (l : String) : (strTrimRight l).data <+: l.data := by
  simp only [strTrimRight]
  have h := List.reverse_prefix.mpr (List.dropWhile_suffix (l := l.data.reverse) Char.isWhitespace)
  rwa [List.reverse_reverse] at h

/-- Right-trimming cannot create a date-section heading. -/
theorem isTodayEntry_of_trimRight (d l : String)
    (h : Standup.isTodayEntry d (strTrimRight l) = true) :
    Standup.isTodayEntry d l = true := by
  have hpre := strTrimRight_data_prefix l
  simp only [Standup.isTodayEntry, Bool.and_eq_true, strStartsWith, strContains,
    List.isPrefixOf_iff_prefix, decide_eq_true_eq] at h ⊢
  exact ⟨h.1.trans hpre, h.2.trans hpre.isInfix⟩

/-- Trimming both sides factors through left then right. -/
theorem isTodayEntry_of_trimSpace (d l : String)
    (h : Standup.isTodayEntry d (strTrimSpace l) = true) :
    Standup.isTodayEntry d (strTrimLeft l) = true :=
  isTodayEntry_of_trimRight d (strTrimLeft l) h

/-- A string whose first character is not whitespace is untouched by the left trim. -/
theorem strTrimLeft_of_head (c : Char) (hc : c.isWhitespace = false) (s : String) :
    strTrimLeft ⟨c :: s.data⟩ = ⟨c :: s.data⟩ := by
  simp [strTrimLeft, List.dropWhile_cons, hc]

/-- A string whose first character is not whitespace is not blank. -/
theorem strTrimSpace_ne_of_head (c : Char) (hc : c.isWhitespace = false) (s : String) :
    (strTrimSpace ⟨c :: s.data⟩ == "") = false := by
  simp only [strTrimSpace, strTrimLeft_of_head c hc, strTrimRight]
  rw [beq_eq_false_iff_ne]
  intro h
  have hd : ((c :: s.data).reverse.dropWhile Char.isWhitespace).reverse = [] := congrArg String.data h
  rw [List.reverse_eq_nil_iff, List.dropWhile_eq_nil_iff] at hd
  have := hd c (by simp)
  rw [hc] at this
  exact Bool.false_ne_true this

end StringLemmas

/-- Claim C8: for every date, `GetLastWorkingDay` goes back exactly 3 calendar days
from a Monday, exactly 2 from a Sunday, and exactly 1 from any other weekday
(Saturday included). -/
theorem claim_C8 (d : Int) :
    (GitPkg.weekdayOf d = .monday → GitPkg.GetLastWorkingDay d = d - 3) ∧
    (GitPkg.weekdayOf d = .sunday → GitPkg.GetLastWorkingDay d = d - 2) ∧
    (GitPkg.weekdayOf d ≠ .monday → GitPkg.weekdayOf d ≠ .sunday →
      GitPkg.GetLastWorkingDay d = d - 1) := by
  unfold GitPkg.GetLastWorkingDay
  cases h : GitPkg.weekdayOf d <;> simp [h]

/-- Witness for C8 at concrete Monday, Sunday and Saturday day numbers
(day 0 is a Sunday). -/
theorem claim_C8_witness :
    GitPkg.GetLastWorkingDay 1 = 1 - 3 ∧ GitPkg.GetLastWorkingDay 7 = 7 - 2 ∧
    GitPkg.GetLastWorkingDay 6 = 6 - 1 :=
  ⟨(claim_C8 1).1 (by decide), ((claim_C8 7).2).1 (by decide),
   ((claim_C8 6).2).2 (by decide) (by decide)⟩

/-- Claim C10: the personal-log path is `repoPath/stand-ups/<name lowercased>.md`,
and names differing only in letter case produce the same path. -/
theorem claim_C10 (repoPath n1 n2 : String) :
    Standup.GetStandupFilePath repoPath n1 =
      repoPath ++ "/stand-ups/" ++ strToLower n1 ++ ".md" ∧
    (n1.data.map Char.toLower = n2.data.map Char.toLower →
      Standup.GetStandupFilePath repoPath n1 = Standup.GetStandupFilePath repoPath n2) := by
  refine ⟨rfl, fun h => ?_⟩
  simp only [Standup.GetStandupFilePath, strToLower, h]

/-- Witness for C10: `Alice` and `ALICE` share one personal-log file. -/
theorem claim_C10_witness :
    Standup.GetStandupFilePath "/repo" "Alice" = Standup.GetStandupFilePath "/repo" "ALICE" :=
  (claim_C10 "/repo" "Alice" "ALICE").2 (by decide)

/-- Claim C6: structured parsing fails exactly when both item lists are empty;
on success the blockers default to `None` only for the empty string and the date is
the construction-time clock value, never caller input. -/
theorem claim_C6 (input : Standup.JSONInput) (now : String) :
    ((∃ e, Standup.ParseJSONInput input now = .ok e) ↔
      ¬(input.yesterday = [] ∧ input.today = [])) ∧
    (∀ e, Standup.ParseJSONInput input now = .ok e →
      e.date = now ∧ e.yesterday = input.yesterday ∧ e.today = input.today ∧
      e.blockers = (if input.blockers = "" then "None" else input.blockers)) := by
  unfold Standup.ParseJSONInput
  by_cases hy : input.yesterday = [] <;> by_cases ht : input.today = [] <;>
    simp [hy, ht, List.isEmpty_iff] <;>
    (intro e he; rw [← he]; simp)

/-- Witness for C6: a single `yesterday` item parses, blockers default to `None`,
and the date is the supplied clock value. -/
theorem claim_C6_witness :
    (⟨"2024-02-01", ["x"], [], "None"⟩ : Standup.Entry).date = "2024-02-01" ∧
    (⟨"2024-02-01", ["x"], [], "None"⟩ : Standup.Entry).yesterday = ["x"] ∧
    (⟨"2024-02-01", ["x"], [], "None"⟩ : Standup.Entry).today = [] ∧
    (⟨"2024-02-01", ["x"], [], "None"⟩ : Standup.Entry).blockers =
      (if ("" : String) = "" then "None" else "") :=
  (claim_C6 ⟨["x"], [], ""⟩ "2024-02-01").2 ⟨"2024-02-01", ["x"], [], "None"⟩ rfl

/-- Left-cancellation for string append. -/
theorem strAppend_left_cancel {p a b : String} (h : p ++ a = p ++ b) : a = b := by
  have hd := congrArg String.data h
  simp only [String.data_append, List.append_cancel_left_eq] at hd
  exact String.ext hd

/-- A bullet line sits in the rendered bullet list exactly when its text is an item. -/
theorem bullet_mem_map (x : String) (items : List String) :
    ("- " ++ x) ∈ items.map (fun item => "- " ++ item) ↔ x ∈ items := by
  rw [List.mem_map]
  constructor
  · rintro ⟨a, ha, hax⟩
    rwa [← strAppend_left_cancel hax]
  · intro hx
    exact ⟨x, hx, rfl⟩

/-- A level-2 heading never equals a bullet line. -/
theorem heading_ne_bullet (s t : String) : ("## " ++ s) ≠ ("- " ++ t) := by
  intro h
  have hd := congrArg String.data h
  simp [String.data_append] at hd

/-- Every line of a rendered entry section is one of: the date heading, a blank,
one of the three labels, the separator, the blockers line, a placeholder bullet
(for an empty list), or an item bullet. -/
theorem formatEntry_forall (e : Standup.Entry) (p : String → Prop)
    (hh : p ("## " ++ e.date)) (hb : p "") (hl1 : p "**Yesterday:**")
    (hl2 : p "**Today:**") (hl3 : p "**Blockers:**") (hs : p "---")
    (hbl : p e.blockers)
    (hyd : e.yesterday = [] → p "- Nothing to report")
    (hyi : ∀ i ∈ e.yesterday, p ("- " ++ i))
    (htd : e.today = [] → p "- Nothing planned")
    (hti : ∀ i ∈ e.today, p ("- " ++ i)) :
    ∀ x ∈ Standup.formatEntry e, p x := by
  have hyall : ∀ x ∈ ((if e.yesterday.isEmpty then ["- " ++ "Nothing to report"]
      else e.yesterday.map (fun item => "- " ++ item)) : List String), p x := by
    by_cases hy : e.yesterday.isEmpty
    · rw [if_pos hy]
      intro x hx
      rw [List.mem_singleton] at hx
      subst hx
      exact hyd (List.isEmpty_iff.mp hy)
    · rw [if_neg hy]
      intro x hx
      obtain ⟨i, hi, rfl⟩ := List.mem_map.mp hx
      exact hyi i hi
  have htall : ∀ x ∈ ((if e.today.isEmpty then ["- " ++ "Nothing planned"]
      else e.today.map (fun item => "- " ++ item)) : List String), p x := by
    by_cases ht : e.today.isEmpty
    · rw [if_pos ht]
      intro x hx
      rw [List.mem_singleton] at hx
      subst hx
      exact htd (List.isEmpty_iff.mp ht)
    · rw [if_neg ht]
      intro x hx
      obtain ⟨i, hi, rfl⟩ := List.mem_map.mp hx
      exact hti i hi
  intro x hx
  unfold Standup.formatEntry Standup.formatSection at hx
  rcases List.mem_cons.mp hx with rfl | hx
  · exact hh
  rcases List.mem_cons.mp hx with rfl | hx
  · exact hb
  rcases List.mem_append.mp hx with hx | hx
  · rcases List.mem_append.mp hx with hx | hx
    · rcases List.mem_cons.mp hx with rfl | hx
      · exact hl1
      rcases List.mem_append.mp hx with hx | hx
      · exact hyall x hx
      · rw [List.mem_singleton] at hx
        subst hx
        exact hb
    · rcases List.mem_cons.mp hx with rfl | hx
      · exact hl2
      rcases List.mem_append.mp hx with hx | hx
      · exact htall x hx
      · rw [List.mem_singleton] at hx
        subst hx
        exact hb
  · rcases List.mem_cons.mp hx with rfl | hx
    · exact hl3
    rcases List.mem_cons.mp hx with rfl | hx
    · exact hbl
    rcases List.mem_cons.mp hx with rfl | hx
    · exact hb
    rw [List.mem_singleton] at hx
    subst hx
    exact hs

/-- Counterexample for C9: a whitespace-only (blank but non-empty) blockers value
coming through the JSON path is rendered verbatim, not as `None`. -/
theorem counterexample_C9 :
    (strTrimSpace " " == "") = true ∧
    Standup.ParseJSONInput ⟨["x"], [], " "⟩ "2024-01-15" =
      .ok ⟨"2024-01-15", ["x"], [], " "⟩ ∧
    "None" ∉ Standup.formatEntry ⟨"2024-01-15", ["x"], [], " "⟩ ∧
    " " ∈ Standup.formatEntry ⟨"2024-01-15", ["x"], [], " "⟩ := by
  refine ⟨by decide, rfl, by decide, by decide⟩

/-- Claim C9 (amended): the placeholder bullets appear exactly for empty item lists
(provided no real item or the blockers line spells the placeholder bullet itself), the
blockers value occupies the dedicated line of the rendered section, and an empty
(rather than merely blank) JSON blockers value is rendered as the literal `None`. -/
theorem claim_C9 :
    (∀ (input : Standup.JSONInput) (now : String) (e : Standup.Entry),
      Standup.ParseJSONInput input now = .ok e → input.blockers = "" →
        e.blockers = "None") ∧
    (∀ e : Standup.Entry, ∃ pre, Standup.formatEntry e =
      pre ++ ["**Blockers:**", e.blockers, "", "---"]) ∧
    (∀ e : Standup.Entry, "Nothing to report" ∉ e.yesterday →
      "Nothing to report" ∉ e.today → e.blockers ≠ "- Nothing to report" →
      (("- Nothing to report") ∈ Standup.formatEntry e ↔ e.yesterday = [])) ∧
    (∀ e : Standup.Entry, "Nothing planned" ∉ e.yesterday →
      "Nothing planned" ∉ e.today → e.blockers ≠ "- Nothing planned" →
      (("- Nothing planned") ∈ Standup.formatEntry e ↔ e.today = [])) := by
  refine ⟨?_, ?_, ?_, ?_⟩
  · intro input now e he hb
    unfold Standup.ParseJSONInput at he
    by_cases hy : input.yesterday.isEmpty && input.today.isEmpty
    · rw [if_pos hy] at he
      exact absurd he (by simp)
    · rw [if_neg hy] at he
      simp only [Except.ok.injEq] at he
      rw [← he]
      simp [hb]
  · intro e
    exact ⟨("## " ++ e.date) :: "" ::
      (Standup.formatSection "Yesterday" e.yesterday "Nothing to report" ++
       Standup.formatSection "Today" e.today "Nothing planned"),
      by simp [Standup.formatEntry]⟩
  · intro e h1 h2 h3
    constructor
    · intro hmem
      by_contra hy
      exact formatEntry_forall e (fun x => x ≠ "- Nothing to report")
        (fun h => heading_ne_bullet e.date "Nothing to report" h)
        (by decide) (by decide) (by decide) (by decide) (by decide)
        (fun h => h3 h)
        (fun h0 => absurd h0 hy)
        (fun i hi h => h1 (by rw [show ("- Nothing to report" : String) =
          "- " ++ "Nothing to report" from rfl] at h; rwa [← strAppend_left_cancel h]))
        (fun _ => by decide)
        (fun i hi h => h2 (by rw [show ("- Nothing to report" : String) =
          "- " ++ "Nothing to report" from rfl] at h; rwa [← strAppend_left_cancel h]))
        _ hmem rfl
    · intro hy
      simp [Standup.formatEntry, Standup.formatSection, hy]
  · intro e h1 h2 h3
    constructor
    · intro hmem
      by_contra ht
      exact formatEntry_forall e (fun x => x ≠ "- Nothing planned")
        (fun h => heading_ne_bullet e.date "Nothing planned" h)
        (by decide) (by decide) (by decide) (by decide) (by decide)
        (fun h => h3 h)
        (fun _ => by decide)
        (fun i hi h => h1 (by rw [show ("- Nothing planned" : String) =
          "- " ++ "Nothing planned" from rfl] at h; rwa [← strAppend_left_cancel h]))
        (fun h0 => absurd h0 ht)
        (fun i hi h => h2 (by rw [show ("- Nothing planned" : String) =
          "- " ++ "Nothing planned" from rfl] at h; rwa [← strAppend_left_cancel h]))
        _ hmem rfl
    · intro ht
      simp [Standup.formatEntry, Standup.formatSection, ht]

/-- Witness for C9 at a concrete entry with an empty yesterday list and an
empty-string JSON blockers value. -/
theorem claim_C9_witness :
    ("- Nothing to report") ∈
      Standup.formatEntry ⟨"2024-01-15", [], ["t"], "None"⟩ ∧
    (⟨"2024-01-15", [], ["t"], "None"⟩ : Standup.Entry).blockers = "None" :=
  ⟨(claim_C9.2.2.1 ⟨"2024-01-15", [], ["t"], "None"⟩ (by decide) (by decide)
      (by decide)).mpr rfl,
   claim_C9.1 ⟨[], ["t"], ""⟩ "2024-01-15" ⟨"2024-01-15", [], ["t"], "None"⟩ rfl rfl⟩

/-- Environment in which the daily branch exists locally but has no remote
counterpart (`ls-remote` answers empty), and every command succeeds. -/
def envLocalOnly : GitPkg.Env := fun i c =>
  match i, c with
  | 1, GitPkg.GitCmd.branchList _ => ⟨"standup/2024-01-15", none⟩
  | 3, GitPkg.GitCmd.lsRemoteHeads _ => ⟨"", none⟩
  | _, _ => ⟨"", none⟩

/-- Environment in which the initial fetch of remote branches fails. -/
def envFetchFails : GitPkg.Env := fun _ c =>
  match c with
  | GitPkg.GitCmd.fetchAll => ⟨"", some "network down"⟩
  | GitPkg.GitCmd.branchList _ => ⟨"standup/2024-01-15", none⟩
  | _ => ⟨"", none⟩

/-- Counterexample for C3: the claim as stated says a locally existing branch is
switched to and then pulled with rebase, but when the branch has no remote
counterpart no pull is ever issued; and when the initial fetch fails, nothing of
the described behaviour happens at all (not even the switch). -/
theorem counterexample_C3 :
    (GitPkg.CreateOrCheckoutBranch envLocalOnly ⟨[]⟩ "standup/2024-01-15").1 = .ok () ∧
    GitPkg.GitCmd.pullRebase "standup/2024-01-15" ∉
      (GitPkg.CreateOrCheckoutBranch envLocalOnly ⟨[]⟩ "standup/2024-01-15").2.cmds ∧
    (GitPkg.CreateOrCheckoutBranch envFetchFails ⟨[]⟩ "standup/2024-01-15").2.cmds =
      [GitPkg.GitCmd.fetchAll] ∧
    (∃ msg, (GitPkg.CreateOrCheckoutBranch envFetchFails ⟨[]⟩ "standup/2024-01-15").1 =
      .error msg) := by
  refine ⟨rfl, by decide, rfl, ⟨_, rfl⟩⟩

/-- Claim C3 (amended): after a successful initial fetch, the branch-convergence
operation behaves as the claimed decision tree, except that the pull-with-rebase
(and its hard-reset fallback) happens only when the remote counterpart exists: a
local-only branch is merely switched to. -/
theorem claim_C3 (env : GitPkg.Env) (name : String) :
    (∀ o0 e0, env 0 .fetchAll = ⟨o0, some e0⟩ →
      GitPkg.CreateOrCheckoutBranch env ⟨[]⟩ name =
        (.error ("failed to fetch remote branches: " ++ e0 ++ " (output: " ++ o0 ++ ")"),
         ⟨[.fetchAll]⟩)) ∧
    (∀ o0 o2 e2, env 0 .fetchAll = ⟨o0, none⟩ →
      ((env 1 (.branchList name)).err.isNone &&
        (strTrimSpace (env 1 (.branchList name)).output != "")) = true →
      env 2 (.checkout name) = ⟨o2, some e2⟩ →
      GitPkg.CreateOrCheckoutBranch env ⟨[]⟩ name =
        (.error ("failed to switch to branch: " ++ e2 ++ "\nOutput: " ++ o2),
         ⟨[.fetchAll, .branchList name, .checkout name]⟩)) ∧
    (∀ o0 o2 o4, env 0 .fetchAll = ⟨o0, none⟩ →
      ((env 1 (.branchList name)).err.isNone &&
        (strTrimSpace (env 1 (.branchList name)).output != "")) = true →
      env 2 (.checkout name) = ⟨o2, none⟩ →
      ((env 3 (.lsRemoteHeads name)).err.isNone &&
        (strTrimSpace (env 3 (.lsRemoteHeads name)).output != "")) = true →
      env 4 (.pullRebase name) = ⟨o4, none⟩ →
      GitPkg.CreateOrCheckoutBranch env ⟨[]⟩ name =
        (.ok (), ⟨[.fetchAll, .branchList name, .checkout name, .lsRemoteHeads name,
          .pullRebase name]⟩)) ∧
    (∀ o0 o2 o4 pe o5, env 0 .fetchAll = ⟨o0, none⟩ →
      ((env 1 (.branchList name)).err.isNone &&
        (strTrimSpace (env 1 (.branchList name)).output != "")) = true →
      env 2 (.checkout name) = ⟨o2, none⟩ →
      ((env 3 (.lsRemoteHeads name)).err.isNone &&
        (strTrimSpace (env 3 (.lsRemoteHeads name)).output != "")) = true →
      env 4 (.pullRebase name) = ⟨o4, some pe⟩ →
      env 5 (.resetHard name) = ⟨o5, none⟩ →
      GitPkg.CreateOrCheckoutBranch env ⟨[]⟩ name =
        (.ok (), ⟨[.fetchAll, .branchList name, .checkout name, .lsRemoteHeads name,
          .pullRebase name, .resetHard name]⟩)) ∧
    (∀ o0 o2 o4 pe o5 re, env 0 .fetchAll = ⟨o0, none⟩ →
      ((env 1 (.branchList name)).err.isNone &&
        (strTrimSpace (env 1 (.branchList name)).output != "")) = true →
      env 2 (.checkout name) = ⟨o2, none⟩ →
      ((env 3 (.lsRemoteHeads name)).err.isNone &&
        (strTrimSpace (env 3 (.lsRemoteHeads name)).output != "")) = true →
      env 4 (.pullRebase name) = ⟨o4, some pe⟩ →
      env 5 (.resetHard name) = ⟨o5, some re⟩ →
      ∃ msg, GitPkg.CreateOrCheckoutBranch env ⟨[]⟩ name =
        (.error msg, ⟨[.fetchAll, .branchList name, .checkout name, .lsRemoteHeads name,
          .pullRebase name, .resetHard name]⟩) ∧
        strContains msg pe = true ∧ strContains msg re = true) ∧
    (∀ o0 o2, env 0 .fetchAll = ⟨o0, none⟩ →
      ((env 1 (.branchList name)).err.isNone &&
        (strTrimSpace (env 1 (.branchList name)).output != "")) = true →
      env 2 (.checkout name) = ⟨o2, none⟩ →
      ((env 3 (.lsRemoteHeads name)).err.isNone &&
        (strTrimSpace (env 3 (.lsRemoteHeads name)).output != "")) = false →
      GitPkg.CreateOrCheckoutBranch env ⟨[]⟩ name =
        (.ok (), ⟨[.fetchAll, .branchList name, .checkout name, .lsRemoteHeads name]⟩)) ∧
    (∀ o0 o3, env 0 .fetchAll = ⟨o0, none⟩ →
      ((env 1 (.branchList name)).err.isNone &&
        (strTrimSpace (env 1 (.branchList name)).output != "")) = false →
      ((env 2 (.lsRemoteHeads name)).err.isNone &&
        (strTrimSpace (env 2 (.lsRemoteHeads name)).output != "")) = true →
      env 3 (.checkoutTrack name) = ⟨o3, none⟩ →
      GitPkg.CreateOrCheckoutBranch env ⟨[]⟩ name =
        (.ok (), ⟨[.fetchAll, .branchList name, .lsRemoteHeads name,
          .checkoutTrack name]⟩)) ∧
    (∀ o0 o3 e3 o4, env 0 .fetchAll = ⟨o0, none⟩ →
      ((env 1 (.branchList name)).err.isNone &&
        (strTrimSpace (env 1 (.branchList name)).output != "")) = false →
      ((env 2 (.lsRemoteHeads name)).err.isNone &&
        (strTrimSpace (env 2 (.lsRemoteHeads name)).output != "")) = true →
      env 3 (.checkoutTrack name) = ⟨o3, some e3⟩ →
      env 4 (.checkout name) = ⟨o4, none⟩ →
      GitPkg.CreateOrCheckoutBranch env ⟨[]⟩ name =
        (.ok (), ⟨[.fetchAll, .branchList name, .lsRemoteHeads name,
          .checkoutTrack name, .checkout name]⟩)) ∧
    (∀ o0 o3 e3 o4 e4, env 0 .fetchAll = ⟨o0, none⟩ →
      ((env 1 (.branchList name)).err.isNone &&
        (strTrimSpace (env 1 (.branchList name)).output != "")) = false →
      ((env 2 (.lsRemoteHeads name)).err.isNone &&
        (strTrimSpace (env 2 (.lsRemoteHeads name)).output != "")) = true →
      env 3 (.checkoutTrack name) = ⟨o3, some e3⟩ →
      env 4 (.checkout name) = ⟨o4, some e4⟩ →
      GitPkg.CreateOrCheckoutBranch env ⟨[]⟩ name =
        (.error ("failed to checkout remote branch: " ++ e4 ++ " (output: " ++ o3 ++
          ", " ++ o4 ++ ")"),
         ⟨[.fetchAll, .branchList name, .lsRemoteHeads name, .checkoutTrack name,
           .checkout name]⟩)) ∧
    (∀ o0, env 0 .fetchAll = ⟨o0, none⟩ →
      ((env 1 (.branchList name)).err.isNone &&
        (strTrimSpace (env 1 (.branchList name)).output != "")) = false →
      ((env 2 (.lsRemoteHeads name)).err.isNone &&
        (strTrimSpace (env 2 (.lsRemoteHeads name)).output != "")) = false →
      GitPkg.CreateOrCheckoutBranch env ⟨[]⟩ name =
        GitPkg.CreateBranch env ⟨[.fetchAll, .branchList name, .lsRemoteHeads name]⟩
          name) := by
  refine ⟨?_, ?_, ?_, ?_, ?_, ?_, ?_, ?_, ?_, ?_⟩
  · intro o0 e0 h0
    simp [GitPkg.CreateOrCheckoutBranch, GitPkg.fetchAll, GitPkg.runCmd, h0,
      String.append_assoc]
  · intro o0 o2 e2 h0 h1 h2
    simp [GitPkg.CreateOrCheckoutBranch, GitPkg.fetchAll, GitPkg.BranchExists,
      GitPkg.SwitchToBranch, GitPkg.runCmd, h0, h1, h2]
  · intro o0 o2 o4 h0 h1 h2 h3 h4
    simp [GitPkg.CreateOrCheckoutBranch, GitPkg.fetchAll, GitPkg.BranchExists,
      GitPkg.SwitchToBranch, GitPkg.RemoteBranchExists, GitPkg.runCmd, h0, h1, h2, h3, h4]
  · intro o0 o2 o4 pe o5 h0 h1 h2 h3 h4 h5
    simp [GitPkg.CreateOrCheckoutBranch, GitPkg.fetchAll, GitPkg.BranchExists,
      GitPkg.SwitchToBranch, GitPkg.RemoteBranchExists, GitPkg.runCmd,
      h0, h1, h2, h3, h4, h5]
  · intro o0 o2 o4 pe o5 re h0 h1 h2 h3 h4 h5
    refine ⟨"failed to sync with remote branch: pull error: " ++ pe ++ " (output: " ++
      o4 ++ "), reset error: " ++ re ++ " (output: " ++ o5 ++ ")", ?_, ?_, ?_⟩
    · simp [GitPkg.CreateOrCheckoutBranch, GitPkg.fetchAll, GitPkg.BranchExists,
        GitPkg.SwitchToBranch, GitPkg.RemoteBranchExists, GitPkg.runCmd,
        h0, h1, h2, h3, h4, h5]
    · have h := strContains_append_middle
        ("failed to sync with remote branch: pull error: ") pe
        (" (output: " ++ o4 ++ "), reset error: " ++ re ++ " (output: " ++ o5 ++ ")")
      simpa [String.append_assoc] using h
    · have h := strContains_append_middle
        ("failed to sync with remote branch: pull error: " ++ pe ++ " (output: " ++
          o4 ++ "), reset error: ") re (" (output: " ++ o5 ++ ")")
      simpa [String.append_assoc] using h
  · intro o0 o2 h0 h1 h2 h3
    simp [GitPkg.CreateOrCheckoutBranch, GitPkg.fetchAll, GitPkg.BranchExists,
      GitPkg.SwitchToBranch, GitPkg.RemoteBranchExists, GitPkg.runCmd, h0, h1, h2, h3]
  · intro o0 o3 h0 h1 h2 h3
    simp [GitPkg.CreateOrCheckoutBranch, GitPkg.fetchAll, GitPkg.BranchExists,
      GitPkg.RemoteBranchExists, GitPkg.runCmd, h0, h1, h2, h3]
  · intro o0 o3 e3 o4 h0 h1 h2 h3 h4
    simp [GitPkg.CreateOrCheckoutBranch, GitPkg.fetchAll, GitPkg.BranchExists,
      GitPkg.RemoteBranchExists, GitPkg.runCmd, h0, h1, h2, h3, h4]
  · intro o0 o3 e3 o4 e4 h0 h1 h2 h3 h4
    simp [GitPkg.CreateOrCheckoutBranch, GitPkg.fetchAll, GitPkg.BranchExists,
      GitPkg.RemoteBranchExists, GitPkg.runCmd, h0, h1, h2, h3, h4]
  · intro o0 h0 h1 h2
    simp [GitPkg.CreateOrCheckoutBranch, GitPkg.fetchAll, GitPkg.BranchExists,
      GitPkg.RemoteBranchExists, GitPkg.runCmd, h0, h1, h2]

/-- Environment in which the shared branch exists on both sides and both the
rebase pull and the hard reset fail. -/
def envPullResetFail : GitPkg.Env := fun i c =>
  match i, c with
  | 1, GitPkg.GitCmd.branchList _ => ⟨"standup/2024-01-15", none⟩
  | 3, GitPkg.GitCmd.lsRemoteHeads _ => ⟨"refs/heads/standup", none⟩
  | 4, GitPkg.GitCmd.pullRebase _ => ⟨"conflict", some "pull boom"⟩
  | 5, GitPkg.GitCmd.resetHard _ => ⟨"cannot reset", some "reset boom"⟩
  | _, _ => ⟨"", none⟩

/-- Witness for C3: the double-failure scenario surfaces one error carrying both
underlying messages. -/
theorem claim_C3_witness :
    ∃ msg, GitPkg.CreateOrCheckoutBranch envPullResetFail ⟨[]⟩ "standup/2024-01-15" =
      (.error msg, ⟨[.fetchAll, .branchList "standup/2024-01-15",
        .checkout "standup/2024-01-15", .lsRemoteHeads "standup/2024-01-15",
        .pullRebase "standup/2024-01-15", .resetHard "standup/2024-01-15"]⟩) ∧
      strContains msg "pull boom" = true ∧ strContains msg "reset boom" = true :=
  (claim_C3 envPullResetFail "standup/2024-01-15").2.2.2.2.1 "" "" "conflict"
    "pull boom" "cannot reset" "reset boom" rfl (by decide) rfl (by decide) rfl rfl

/-- Recogniser for push commands. -/
def isPushCmd : GitPkg.GitCmd → Bool
  | .push _ => true
  | _ => false

/-- Whatever the environment answers, one `pushWithUpstream` call issues at most two
push commands. -/
theorem pushWithUpstream_trace (env : GitPkg.Env) (tr : GitPkg.Trace) (branch : String) :
    ∃ delta, (GitPkg.pushWithUpstream env tr branch).2.cmds = tr.cmds ++ delta ∧
      (delta.filter isPushCmd).length ≤ 2 := by
  cases h0 : env tr.cmds.length (GitPkg.GitCmd.push branch) with
  | mk o0 e0 =>
    cases e0 with
    | none =>
      refine ⟨[.push branch], ?_, by simp [isPushCmd]⟩
      simp [GitPkg.pushWithUpstream, GitPkg.runCmd, h0]
    | some e0 =>
      by_cases hm : (!(strContains o0 "non-fast-forward") && !(strContains o0 "rejected")) = true
      · refine ⟨[.push branch], ?_, by simp [isPushCmd]⟩
        simp [GitPkg.pushWithUpstream, GitPkg.runCmd, h0, hm]
      · rw [Bool.not_eq_true] at hm
        cases h1 : env (tr.cmds.length + 1) GitPkg.GitCmd.fetchAll with
        | mk o1 e1 =>
          cases e1 with
          | some e1 =>
            refine ⟨[.push branch, .fetchAll], ?_, by simp [isPushCmd]⟩
            simp [GitPkg.pushWithUpstream, GitPkg.fetchAll, GitPkg.runCmd, h0, hm, h1]
          | none =>
            cases h2 : env (tr.cmds.length + 2) (GitPkg.GitCmd.pullRebase branch) with
            | mk o2 e2 =>
              cases e2 with
              | none =>
                refine ⟨[.push branch, .fetchAll, .pullRebase branch, .push branch], ?_,
                  by simp [isPushCmd]⟩
                cases h3 : env (tr.cmds.length + 3) (GitPkg.GitCmd.push branch) with
                | mk o3 e3 =>
                  cases e3 <;>
                    simp [GitPkg.pushWithUpstream, GitPkg.fetchAll, GitPkg.runCmd,
                      h0, hm, h1, h2, h3]
              | some e2 =>
                cases h4 : env (tr.cmds.length + 4) (GitPkg.GitCmd.mergeNoEdit branch) with
                | mk o4 e4 =>
                  cases e4 with
                  | some e4 =>
                    refine ⟨[.push branch, .fetchAll, .pullRebase branch, .rebaseAbort,
                      .mergeNoEdit branch], ?_, by simp [isPushCmd]⟩
                    simp [GitPkg.pushWithUpstream, GitPkg.fetchAll, GitPkg.runCmd,
                      h0, hm, h1, h2, h4]
                  | none =>
                    refine ⟨[.push branch, .fetchAll, .pullRebase branch, .rebaseAbort,
                      .mergeNoEdit branch, .push branch], ?_, by simp [isPushCmd]⟩
                    cases h5 : env (tr.cmds.length + 5) (GitPkg.GitCmd.push branch) with
                    | mk o5 e5 =>
                      cases e5 <;>
                        simp [GitPkg.pushWithUpstream, GitPkg.fetchAll, GitPkg.runCmd,
                          h0, hm, h1, h2, h4, h5]

/-- Claim C4: a push rejected as non-fast-forward triggers exactly one scripted
recovery (fetch, rebase; on rebase failure abort-and-merge; combined error when both
fail), the push is retried exactly once with any further failure terminal, and the
direct-commit workflow never attempts more than two pushes. -/
theorem claim_C4 (env : GitPkg.Env) (branch : String) :
    (∀ o0, env 0 (.push branch) = ⟨o0, none⟩ →
      GitPkg.pushWithUpstream env ⟨[]⟩ branch = (.ok (), ⟨[.push branch]⟩)) ∧
    (∀ o0 e0, env 0 (.push branch) = ⟨o0, some e0⟩ →
      strContains o0 "non-fast-forward" = false → strContains o0 "rejected" = false →
      GitPkg.pushWithUpstream env ⟨[]⟩ branch =
        (.error (e0 ++ " (output: " ++ o0 ++ ")"), ⟨[.push branch]⟩)) ∧
    (∀ o0 e0 o1 e1, env 0 (.push branch) = ⟨o0, some e0⟩ →
      strContains o0 "non-fast-forward" = true →
      env 1 .fetchAll = ⟨o1, some e1⟩ →
      GitPkg.pushWithUpstream env ⟨[]⟩ branch =
        (.error ("failed to fetch during push retry: " ++ e1 ++ " (output: " ++ o1 ++ ")"),
         ⟨[.push branch, .fetchAll]⟩)) ∧
    (∀ o0 e0 o1 o2 o3, env 0 (.push branch) = ⟨o0, some e0⟩ →
      strContains o0 "non-fast-forward" = true →
      env 1 .fetchAll = ⟨o1, none⟩ → env 2 (.pullRebase branch) = ⟨o2, none⟩ →
      env 3 (.push branch) = ⟨o3, none⟩ →
      GitPkg.pushWithUpstream env ⟨[]⟩ branch =
        (.ok (), ⟨[.push branch, .fetchAll, .pullRebase branch, .push branch]⟩)) ∧
    (∀ o0 e0 o1 o2 o3 e3, env 0 (.push branch) = ⟨o0, some e0⟩ →
      strContains o0 "non-fast-forward" = true →
      env 1 .fetchAll = ⟨o1, none⟩ → env 2 (.pullRebase branch) = ⟨o2, none⟩ →
      env 3 (.push branch) = ⟨o3, some e3⟩ →
      GitPkg.pushWithUpstream env ⟨[]⟩ branch =
        (.error ("push failed after sync: " ++ e3 ++ " (output: " ++ o3 ++ ")"),
         ⟨[.push branch, .fetchAll, .pullRebase branch, .push branch]⟩)) ∧
    (∀ o0 e0 o1 o2 e2 o4 o5, env 0 (.push branch) = ⟨o0, some e0⟩ →
      strContains o0 "non-fast-forward" = true →
      env 1 .fetchAll = ⟨o1, none⟩ → env 2 (.pullRebase branch) = ⟨o2, some e2⟩ →
      env 4 (.mergeNoEdit branch) = ⟨o4, none⟩ → env 5 (.push branch) = ⟨o5, none⟩ →
      GitPkg.pushWithUpstream env ⟨[]⟩ branch =
        (.ok (), ⟨[.push branch, .fetchAll, .pullRebase branch, .rebaseAbort,
          .mergeNoEdit branch, .push branch]⟩)) ∧
    (∀ o0 e0 o1 o2 e2 o4 e4, env 0 (.push branch) = ⟨o0, some e0⟩ →
      strContains o0 "non-fast-forward" = true →
      env 1 .fetchAll = ⟨o1, none⟩ → env 2 (.pullRebase branch) = ⟨o2, some e2⟩ →
      env 4 (.mergeNoEdit branch) = ⟨o4, some e4⟩ →
      ∃ msg, GitPkg.pushWithUpstream env ⟨[]⟩ branch =
        (.error msg, ⟨[.push branch, .fetchAll, .pullRebase branch, .rebaseAbort,
          .mergeNoEdit branch]⟩) ∧
        strContains msg o2 = true ∧ strContains msg e4 = true) ∧
    (∀ message, (((GitPkg.CommitAndPush env ⟨[]⟩ message).2.cmds).filter
      isPushCmd).length ≤ 2) := by
  refine ⟨?_, ?_, ?_, ?_, ?_, ?_, ?_, ?_⟩
  · intro o0 h0
    simp [GitPkg.pushWithUpstream, GitPkg.runCmd, h0]
  · intro o0 e0 h0 hn hr
    simp [GitPkg.pushWithUpstream, GitPkg.runCmd, h0, hn, hr]
  · intro o0 e0 o1 e1 h0 hn h1
    simp [GitPkg.pushWithUpstream, GitPkg.fetchAll, GitPkg.runCmd, h0, hn, h1,
      String.append_assoc]
  · intro o0 e0 o1 o2 o3 h0 hn h1 h2 h3
    simp [GitPkg.pushWithUpstream, GitPkg.fetchAll, GitPkg.runCmd, h0, hn, h1, h2, h3]
  · intro o0 e0 o1 o2 o3 e3 h0 hn h1 h2 h3
    simp [GitPkg.pushWithUpstream, GitPkg.fetchAll, GitPkg.runCmd, h0, hn, h1, h2, h3]
  · intro o0 e0 o1 o2 e2 o4 o5 h0 hn h1 h2 h4 h5
    simp [GitPkg.pushWithUpstream, GitPkg.fetchAll, GitPkg.runCmd, h0, hn, h1, h2, h4, h5]
  · intro o0 e0 o1 o2 e2 o4 e4 h0 hn h1 h2 h4
    refine ⟨"failed to sync before push (tried rebase and merge): pull error: " ++ o2 ++
      ", merge error: " ++ e4 ++ " (output: " ++ o4 ++ ")", ?_, ?_, ?_⟩
    · simp [GitPkg.pushWithUpstream, GitPkg.fetchAll, GitPkg.runCmd, h0, hn, h1, h2, h4]
    · have h := strContains_append_middle
        ("failed to sync before push (tried rebase and merge): pull error: ") o2
        (", merge error: " ++ e4 ++ " (output: " ++ o4 ++ ")")
      simpa [String.append_assoc] using h
    · have h := strContains_append_middle
        ("failed to sync before push (tried rebase and merge): pull error: " ++ o2 ++
          ", merge error: ") e4 (" (output: " ++ o4 ++ ")")
      simpa [String.append_assoc] using h
  · intro message
    cases ha : env 0 GitPkg.GitCmd.addAll with
    | mk oa ea =>
      cases ea with
      | some ea => simp [GitPkg.CommitAndPush, GitPkg.runCmd, ha, isPushCmd]
      | none =>
        cases hs : env 1 GitPkg.GitCmd.statusPorcelain with
        | mk os es =>
          cases es with
          | some es => simp [GitPkg.CommitAndPush, GitPkg.runCmd, ha, hs, isPushCmd]
          | none =>
            by_cases hempty : (strTrimSpace os == "") = true
            · simp [GitPkg.CommitAndPush, GitPkg.runCmd, ha, hs, hempty, isPushCmd]
            · rw [Bool.not_eq_true] at hempty
              cases hc : env 2 (GitPkg.GitCmd.commit message) with
              | mk oc ec =>
                cases ec with
                | some ec =>
                  simp [GitPkg.CommitAndPush, GitPkg.runCmd, ha, hs, hempty, hc, isPushCmd]
                | none =>
                  cases hb : env 3 GitPkg.GitCmd.showCurrentBranch with
                  | mk ob eb =>
                    cases eb with
                    | some eb =>
                      simp [GitPkg.CommitAndPush, GitPkg.runCmd, ha, hs, hempty, hc, hb,
                        isPushCmd]
                    | none =>
                      by_cases hbr : (strTrimSpace ob == "") = true
                      · cases hn : env 4 (GitPkg.GitCmd.checkoutNew "main") with
                        | mk onn en =>
                          cases en with
                          | some en =>
                            simp [GitPkg.CommitAndPush, GitPkg.runCmd, ha, hs, hempty,
                              hc, hb, hbr, hn, isPushCmd]
                          | none =>
                            obtain ⟨delta, hdelta, hcount⟩ := pushWithUpstream_trace env
                              ⟨[.addAll, .statusPorcelain, .commit message,
                                .showCurrentBranch, .checkoutNew "main"]⟩ "main"
                            simp [GitPkg.CommitAndPush, GitPkg.runCmd,
                              ha, hs, hempty, hc, hb, hbr, hn]
                            split
                            all_goals
                              rename_i heq
                              rw [heq] at hdelta
                              simp only [Prod.snd] at hdelta
                              simpa [hdelta, List.filter_append, isPushCmd] using hcount
                      · rw [Bool.not_eq_true] at hbr
                        obtain ⟨delta, hdelta, hcount⟩ := pushWithUpstream_trace env
                          ⟨[.addAll, .statusPorcelain, .commit message,
                            .showCurrentBranch]⟩ (strTrimSpace ob)
                        simp [GitPkg.CommitAndPush, GitPkg.runCmd,
                          ha, hs, hempty, hc, hb, hbr]
                        split
                        all_goals
                          rename_i heq
                          rw [heq] at hdelta
                          simp only [Prod.snd] at hdelta
                          simpa [hdelta, List.filter_append, isPushCmd] using hcount

/-- Environment whose first push is rejected as non-fast-forward and whose recovery
(fetch, rebase, second push) succeeds. -/
def envNffRetry : GitPkg.Env := fun i c =>
  match i, c with
  | 0, GitPkg.GitCmd.push _ => ⟨"! [rejected] non-fast-forward", some "exit status 1"⟩
  | _, _ => ⟨"", none⟩

/-- Witness for C4: one rejected push, one recovery, one successful retry -
exactly two push commands. -/
theorem claim_C4_witness :
    GitPkg.pushWithUpstream envNffRetry ⟨[]⟩ "main" =
      (.ok (), ⟨[.push "main", .fetchAll, .pullRebase "main", .push "main"]⟩) :=
  (claim_C4 envNffRetry "main").2.2.2.1 "! [rejected] non-fast-forward"
    "exit status 1" "" "" "" rfl (by decide) rfl rfl rfl

/-- Claim C5: when the branch push of the pull-request workflow fails, the rendered
entry is written to the temporary-storage recovery path (keyed by author and date)
as the last effect before the error is surfaced, and the surfaced error message
contains that recovery path. -/
theorem claim_C5 (env : GitPkg.Env) (prOutcome : Except String Commands.PRInfo)
    (cfgName repoPath : String) (entry : Standup.Entry)
    (s0 s1 s2 : Commands.WorkflowState) (o e : String)
    (h1 : Commands.handleBranch env ("standup/" ++ entry.date) s0 = (.ok (), s1))
    (h2 : Commands.commitStandupChanges env cfgName entry
      (Commands.SaveEntry repoPath entry cfgName s1) = (.ok (), s2))
    (h3 : env (Commands.gitCount s2) (.push ("standup/" ++ entry.date)) = ⟨o, some e⟩) :
    Commands.createOrUpdateStandupPR env prOutcome cfgName repoPath entry s0 =
      (.error ("failed to push changes: failed to push branch: " ++ e ++ "\nOutput: " ++
        o ++ "\nYour standup has been saved to: " ++
        Commands.tempStandupPath cfgName entry.date),
       { fs := (Commands.tempStandupPath cfgName entry.date,
           Commands.tempStandupContent entry cfgName) :: s2.fs,
         trace := s2.trace ++
           [.gitCmd (.push ("standup/" ++ entry.date)),
            .fileWrite (Commands.tempStandupPath cfgName entry.date)
              (Commands.tempStandupContent entry cfgName)] }) ∧
    (Commands.createOrUpdateStandupPR env prOutcome cfgName repoPath entry s0).2.fs.lookup
      (Commands.tempStandupPath cfgName entry.date) =
      some (Commands.tempStandupContent entry cfgName) ∧
    (Commands.createOrUpdateStandupPR env prOutcome cfgName repoPath
        entry s0).2.trace.getLast? =
      some (.fileWrite (Commands.tempStandupPath cfgName entry.date)
        (Commands.tempStandupContent entry cfgName)) ∧
    (∀ msg, (Commands.createOrUpdateStandupPR env prOutcome cfgName repoPath
        entry s0).1 = .error msg →
      strContains msg (Commands.tempStandupPath cfgName entry.date) = true) := by
  have hmain : Commands.createOrUpdateStandupPR env prOutcome cfgName repoPath entry s0 =
      (.error ("failed to push changes: failed to push branch: " ++ e ++ "\nOutput: " ++
        o ++ "\nYour standup has been saved to: " ++
        Commands.tempStandupPath cfgName entry.date),
       { fs := (Commands.tempStandupPath cfgName entry.date,
           Commands.tempStandupContent entry cfgName) :: s2.fs,
         trace := s2.trace ++
           [.gitCmd (.push ("standup/" ++ entry.date)),
            .fileWrite (Commands.tempStandupPath cfgName entry.date)
              (Commands.tempStandupContent entry cfgName)] }) := by
    simp [Commands.createOrUpdateStandupPR, h1, h2, Commands.runGit, h3,
      Commands.saveTempStandup, String.append_assoc]
  refine ⟨hmain, ?_, ?_, ?_⟩
  · rw [hmain]
    simp [List.lookup]
  · rw [hmain]
    have : s2.trace ++
        [Commands.Effect.gitCmd (.push ("standup/" ++ entry.date)),
         Commands.Effect.fileWrite (Commands.tempStandupPath cfgName entry.date)
           (Commands.tempStandupContent entry cfgName)] =
        (s2.trace ++ [Commands.Effect.gitCmd (.push ("standup/" ++ entry.date))]) ++
         [Commands.Effect.fileWrite (Commands.tempStandupPath cfgName entry.date)
           (Commands.tempStandupContent entry cfgName)] := by
      simp
    rw [this, List.getLast?_concat]
  · rw [hmain]
    intro msg hmsg
    simp only [Except.error.injEq] at hmsg
    rw [← hmsg]
    exact strContains_append_right _ _

/-- Environment whose push commands fail and whose other commands succeed with
empty output (so the daily branch is created fresh). -/
def envPushFail : GitPkg.Env := fun _ c =>
  match c with
  | GitPkg.GitCmd.push _ => ⟨"denied", some "exit status 1"⟩
  | _ => ⟨"", none⟩

/-- The concrete entry used by the C5 witness. -/
def entryW : Standup.Entry := ⟨"2024-01-15", ["a"], ["b"], "None"⟩

/-- Witness for C5: with a failing push, the recovery file holds the rendered entry
and the surfaced error names the recovery path. -/
theorem claim_C5_witness :
    (Commands.createOrUpdateStandupPR envPushFail (.ok ⟨"1", "u"⟩) "Alice" "/repo"
      entryW ⟨[], []⟩).2.fs.lookup "/tmp/standup-Alice-2024-01-15.txt" =
      some (Commands.tempStandupContent entryW "Alice") ∧
    (∀ msg, (Commands.createOrUpdateStandupPR envPushFail (.ok ⟨"1", "u"⟩) "Alice"
        "/repo" entryW ⟨[], []⟩).1 = .error msg →
      strContains msg "/tmp/standup-Alice-2024-01-15.txt" = true) := by
  have h := claim_C5 envPushFail (.ok ⟨"1", "u"⟩) "Alice" "/repo" entryW
    ⟨[], []⟩
    ⟨[], [.gitCmd (.branchList "standup/2024-01-15"),
          .gitCmd (.checkoutNew "standup/2024-01-15")]⟩
    ⟨[("/repo/stand-ups/alice.md", Standup.buildNewFileContent entryW "Alice")],
     [.gitCmd (.branchList "standup/2024-01-15"),
      .gitCmd (.checkoutNew "standup/2024-01-15"),
      .fileWrite "/repo/stand-ups/alice.md" (Standup.buildNewFileContent entryW "Alice"),
      .gitCmd .addAll,
      .gitCmd (.commit "[Standup] Alice - 2024-01-15")]⟩
    "denied" "exit status 1" rfl rfl rfl
  exact ⟨h.2.1, h.2.2.2⟩

/-- The deduplication key named by the claim: case-insensitive, whitespace-trimmed. -/
def claimKey (s : String) : String := strToLower (strTrimSpace s)

/-- Modelled from the claim text: first occurrence wins, later items with an equal
key are removed, order otherwise preserved. -/
def claimDedup : List String → List String
  | [] => []
  | x :: xs => x :: claimDedup (xs.filter (fun y => claimKey y != claimKey x))
termination_by l => l.length
decreasing_by simp only [List.length_cons]; exact Nat.lt_succ_of_le (List.length_filter_le _ _)

/-- Modelled from the claim text: strip the first matching conventional-commit type
marker plus leading space only, capitalise, strip one trailing period. -/
def claimNormalize (subject : String) : String :=
  let stripped :=
    match GitPkg.commitTypeMarkers.find? (fun p => strStartsWith (strToLower subject) p) with
    | some p => ⟨(subject.data.drop p.data.length).dropWhile (fun c => c == ' ')⟩
    | none => subject
  strTrimSuffix (GitPkg.capitalizeFirst stripped) "."

/-- The claim's whole pipeline, as stated (no empty-item dropping, leading-space-only
trim after the marker). -/
def claimExtractWorkItems (commits : List GitPkg.CommitDetails) : List String :=
  claimDedup ((commits.filter (fun c => !GitPkg.isSkippableCommit c.subject)).map
    (fun c => claimNormalize c.subject))

/-- The normalization step of the amended claim: strip the first matching type marker
plus surrounding whitespace (leading and trailing), capitalise the first letter,
strip one trailing period. -/
def amendedNormalize (subject : String) : String :=
  let stripped :=
    match GitPkg.commitTypeMarkers.find? (fun p => strStartsWith (strToLower subject) p) with
    | some p => strTrimSpace ⟨subject.data.drop p.data.length⟩
    | none => subject
  strTrimSuffix (GitPkg.capitalizeFirst stripped) "."

/-- Counterexample for C7: a subject normalising to the empty string is dropped
entirely by the code but kept (as an empty item) by the claim as stated, and the
code's trim also removes trailing whitespace after the marker where the claim
strips leading space only. -/
theorem counterexample_C7 :
    GitPkg.ExtractWorkItems [⟨"s1", "a", "d", "m", "feat:.", ""⟩] ≠
      claimExtractWorkItems [⟨"s1", "a", "d", "m", "feat:.", ""⟩] ∧
    GitPkg.ExtractWorkItems [⟨"s2", "a", "d", "m", "feat: add thing ", ""⟩] ≠
      claimExtractWorkItems [⟨"s2", "a", "d", "m", "feat: add thing ", ""⟩] := by
  have h1 : claimExtractWorkItems [⟨"s1", "a", "d", "m", "feat:.", ""⟩] = [""] := by
    have hm : ((([⟨"s1", "a", "d", "m", "feat:.", ""⟩] :
        List GitPkg.CommitDetails).filter
        (fun c => !GitPkg.isSkippableCommit c.subject)).map
        (fun c => claimNormalize c.subject)) = [""] := by decide
    rw [claimExtractWorkItems, hm, claimDedup]
    simp [claimDedup]
  have h2 : claimExtractWorkItems [⟨"s2", "a", "d", "m", "feat: add thing ", ""⟩] =
      ["Add thing "] := by
    have hm : ((([⟨"s2", "a", "d", "m", "feat: add thing ", ""⟩] :
        List GitPkg.CommitDetails).filter
        (fun c => !GitPkg.isSkippableCommit c.subject)).map
        (fun c => claimNormalize c.subject)) = ["Add thing "] := by decide
    rw [claimExtractWorkItems, hm, claimDedup]
    simp [claimDedup]
  rw [h1, h2]
  constructor
  · intro h
    have : GitPkg.ExtractWorkItems [⟨"s1", "a", "d", "m", "feat:.", ""⟩] = [] := by decide
    rw [this] at h
    simp at h
  · intro h
    have : GitPkg.ExtractWorkItems [⟨"s2", "a", "d", "m", "feat: add thing ", ""⟩] =
        ["Add thing"] := by decide
    rw [this] at h
    simp at h

/-- `List.contains` distributes over append. -/
theorem strList_contains_append (l1 l2 : List String) (a : String) :
    (l1 ++ l2).contains a = (l1.contains a || l2.contains a) := by
  induction l1 with
  | nil => simp
  | cons x xs ih => simp [ih, Bool.or_assoc]

/-- Reference recursion for the seen-set fold of `deduplicateItems`. -/
def dedupKeep (seen : List String) : List String → List String
  | [] => []
  | x :: xs =>
    if seen.contains (strToLower (strTrimSpace x)) then dedupKeep seen xs
    else x :: dedupKeep (seen ++ [strToLower (strTrimSpace x)]) xs

/-- The fold inside `deduplicateItems` appends exactly the `dedupKeep` selection. -/
theorem deduplicateItems_foldl (items : List String) : ∀ (seen acc : List String),
    (items.foldl
      (fun (acc : List String × List String) item =>
        let normalized := strToLower (strTrimSpace item)
        if acc.1.contains normalized then acc
        else (acc.1 ++ [normalized], acc.2 ++ [item])) (seen, acc)).2 =
      acc ++ dedupKeep seen items := by
  induction items with
  | nil => intro seen acc; simp [dedupKeep]
  | cons x xs ih =>
    intro seen acc
    rw [List.foldl_cons, dedupKeep]
    by_cases hx : seen.contains (strToLower (strTrimSpace x)) = true
    · rw [if_pos hx]
      simp only [hx, if_true]
      exact ih seen acc
    · rw [if_neg hx]
      rw [Bool.not_eq_true] at hx
      simp only [hx, Bool.false_eq_true, if_false]
      rw [ih (seen ++ [strToLower (strTrimSpace x)]) (acc ++ [x])]
      simp

/-- `dedupKeep` is the claimed declarative deduplication of the not-yet-seen items. -/
theorem dedupKeep_eq_claimDedup (items : List String) : ∀ (seen : List String),
    dedupKeep seen items =
      claimDedup (items.filter (fun y => !(seen.contains (claimKey y)))) := by
  induction items with
  | nil => intro seen; simp [dedupKeep, claimDedup]
  | cons x xs ih =>
    intro seen
    rw [dedupKeep, List.filter_cons]
    by_cases hx : seen.contains (claimKey x) = true
    · simp only [claimKey] at hx
      rw [if_pos hx]
      simp only [claimKey, hx, Bool.not_true, Bool.false_eq_true, if_false]
      exact ih seen
    · rw [Bool.not_eq_true] at hx
      have hx2 : seen.contains (strToLower (strTrimSpace x)) = false := hx
      rw [if_neg (by rw [hx2]; simp)]
      simp only [claimKey, hx2, Bool.not_false, if_true]
      rw [claimDedup]
      congr 1
      rw [ih (seen ++ [strToLower (strTrimSpace x)]), List.filter_filter]
      congr 1
      apply List.filter_congr
      intro y _
      rw [strList_contains_append]
      by_cases hkey : claimKey y = claimKey x
      · simp only [claimKey] at hkey
        simp [claimKey, hkey]
      · simp only [claimKey] at hkey
        simp [claimKey, hkey, bne]

/-- The map-based `deduplicateItems` equals the claimed declarative deduplication. -/
theorem deduplicateItems_eq_claimDedup (items : List String) :
    GitPkg.deduplicateItems items = claimDedup items := by
  rw [GitPkg.deduplicateItems, deduplicateItems_foldl items [] [],
    dedupKeep_eq_claimDedup items []]
  simp

/-- Claim C7 (amended): noise commits are excluded; retained subjects are normalised
by stripping the first matching type marker plus surrounding whitespace, capitalising,
and dropping one trailing period; subjects normalising to the empty string are
dropped; the result is deduplicated by case-insensitive trimmed equality with the
first occurrence winning and order preserved. -/
theorem claim_C7 (commits : List GitPkg.CommitDetails) :
    GitPkg.ExtractWorkItems commits =
      claimDedup (((commits.filter (fun c => !GitPkg.isSkippableCommit c.subject)).map
        (fun c => amendedNormalize c.subject)).filter (fun item => item != "")) := by
  rw [GitPkg.ExtractWorkItems, deduplicateItems_eq_claimDedup]
  rfl

/-- Every line after the heading and its blank separator in a rendered entry
section is a label, bullet, blank, separator or the blockers line. -/
theorem formatEntry_tail_forall (e : Standup.Entry) (p : String → Prop)
    (hb : p "") (hl1 : p "**Yesterday:**") (hl2 : p "**Today:**")
    (hl3 : p "**Blockers:**") (hs : p "---") (hbl : p e.blockers)
    (hyd : e.yesterday = [] → p "- Nothing to report")
    (hyi : ∀ i ∈ e.yesterday, p ("- " ++ i))
    (htd : e.today = [] → p "- Nothing planned")
    (hti : ∀ i ∈ e.today, p ("- " ++ i)) :
    ∀ x ∈ (Standup.formatSection "Yesterday" e.yesterday "Nothing to report" ++
      Standup.formatSection "Today" e.today "Nothing planned" ++
      ["**Blockers:**", e.blockers, "", "---"]), p x := by
  have hyall : ∀ x ∈ ((if e.yesterday.isEmpty then ["- " ++ "Nothing to report"]
      else e.yesterday.map (fun item => "- " ++ item)) : List String), p x := by
    by_cases hy : e.yesterday.isEmpty
    · rw [if_pos hy]
      intro x hx
      rw [List.mem_singleton] at hx
      subst hx
      exact hyd (List.isEmpty_iff.mp hy)
    · rw [if_neg hy]
      intro x hx
      obtain ⟨i, hi, rfl⟩ := List.mem_map.mp hx
      exact hyi i hi
  have htall : ∀ x ∈ ((if e.today.isEmpty then ["- " ++ "Nothing planned"]
      else e.today.map (fun item => "- " ++ item)) : List String), p x := by
    by_cases ht : e.today.isEmpty
    · rw [if_pos ht]
      intro x hx
      rw [List.mem_singleton] at hx
      subst hx
      exact htd (List.isEmpty_iff.mp ht)
    · rw [if_neg ht]
      intro x hx
      obtain ⟨i, hi, rfl⟩ := List.mem_map.mp hx
      exact hti i hi
  intro x hx
  unfold Standup.formatSection at hx
  rcases List.mem_append.mp hx with hx | hx
  · rcases List.mem_append.mp hx with hx | hx
    · rcases List.mem_cons.mp hx with rfl | hx
      · exact hl1
      rcases List.mem_append.mp hx with hx | hx
      · exact hyall x hx
      · rw [List.mem_singleton] at hx
        subst hx
        exact hb
    · rcases List.mem_cons.mp hx with rfl | hx
      · exact hl2
      rcases List.mem_append.mp hx with hx | hx
      · exact htall x hx
      · rw [List.mem_singleton] at hx
        subst hx
        exact hb
  · rcases List.mem_cons.mp hx with rfl | hx
    · exact hl3
    rcases List.mem_cons.mp hx with rfl | hx
    · exact hbl
    rcases List.mem_cons.mp hx with rfl | hx
    · exact hb
    rw [List.mem_singleton] at hx
    subst hx
    exact hs

/-- A concrete line that does not start with two hashes never matches a date
heading test, whatever the date. -/
theorem isTodayEntry_of_not_hh (d l : String) (h : strStartsWith l "## " = false) :
    Standup.isTodayEntry d l = false := by
  simp [Standup.isTodayEntry, h]

/-- No line of a rendered entry section except its own heading matches the date
test, provided the blockers line does not. -/
theorem formatEntry_tail_noMatch (d : String) (e : Standup.Entry)
    (hbl : Standup.isTodayEntry d e.blockers = false) :
    ∀ x ∈ (Standup.formatSection "Yesterday" e.yesterday "Nothing to report" ++
      Standup.formatSection "Today" e.today "Nothing planned" ++
      ["**Blockers:**", e.blockers, "", "---"]), Standup.isTodayEntry d x = false := by
  refine formatEntry_tail_forall e (fun x => Standup.isTodayEntry d x = false)
    (isTodayEntry_of_not_hh d "" (by decide))
    (isTodayEntry_of_not_hh d "**Yesterday:**" (by decide))
    (isTodayEntry_of_not_hh d "**Today:**" (by decide))
    (isTodayEntry_of_not_hh d "**Blockers:**" (by decide))
    (isTodayEntry_of_not_hh d "---" (by decide)) hbl
    (fun _ => isTodayEntry_bullet d "Nothing to report")
    (fun i _ => isTodayEntry_bullet d i)
    (fun _ => isTodayEntry_bullet d "Nothing planned")
    (fun i _ => isTodayEntry_bullet d i)

/-- No line of a rendered entry section matches a foreign date test, provided
neither its heading nor its blockers line does. -/
theorem formatEntry_noMatch (d : String) (e : Standup.Entry)
    (hh : Standup.isTodayEntry d ("## " ++ e.date) = false)
    (hbl : Standup.isTodayEntry d e.blockers = false) :
    ∀ x ∈ Standup.formatEntry e, Standup.isTodayEntry d x = false := by
  intro x hx
  unfold Standup.formatEntry at hx
  rcases List.mem_cons.mp hx with rfl | hx
  · exact hh
  rcases List.mem_cons.mp hx with rfl | hx
  · exact isTodayEntry_of_not_hh d "" (by decide)
  exact formatEntry_tail_noMatch d e hbl x hx

/-- Filtering a rendered section for its own date heading leaves exactly that
heading line. -/
theorem filter_formatEntry (e : Standup.Entry)
    (hbl : Standup.isTodayEntry e.date e.blockers = false) :
    (Standup.formatEntry e).filter (fun l => Standup.isTodayEntry e.date l) =
      ["## " ++ e.date] := by
  unfold Standup.formatEntry
  rw [List.filter_cons, List.filter_cons]
  simp only [isTodayEntry_heading, if_true,
    isTodayEntry_of_not_hh e.date "" (by decide), Bool.false_eq_true, if_false]
  rw [List.filter_eq_nil_iff.mpr (fun a ha => by
    rw [formatEntry_tail_noMatch e.date e hbl a ha]; exact Bool.false_ne_true)]

/-- A string whose character list starts with a non-whitespace character is
not blank. -/
theorem strTrimSpace_ne_of_data (l : String) (c : Char) (rest : List Char)
    (h : l.data = c :: rest) (hc : c.isWhitespace = false) :
    (strTrimSpace l == "") = false := by
  have hl : l = ⟨c :: rest⟩ := String.ext h
  rw [hl]
  exact strTrimSpace_ne_of_head c hc ⟨rest⟩

/-- The default header produced by the manager passes the header test. -/
theorem isHeader_default (u : String) :
    Standup.isHeader ("# " ++ u ++ Standup.headerMark) = true := by
  simp [Standup.isHeader, strStartsWith_append_assoc, strContains_append_right]

/-- Processing a non-blank line that is no date heading, after the header and
outside the matched section, retains the line. -/
theorem processLine_step (d l : String) (i total : Nat)
    (st : Standup.ParseState) (res : Standup.ParsedStandupContent)
    (hHF : st.headerFound = true) (hIT : st.inTodayEntry = false)
    (hnm : Standup.isTodayEntry d l = false) (hnb : (strTrimSpace l == "") = false) :
    Standup.processLine d l i total st res =
      ({ st with currentEntry := st.currentEntry ++ [l] }, res) := by
  unfold Standup.processLine Standup.shouldSkipLine
  simp [hHF, hIT, hnm, hnb]

/-- Processing the last line (never skipped) that is no date heading, after the
header and outside the matched section, retains the line even when blank. -/
theorem processLine_last (d l : String) (i total : Nat)
    (st : Standup.ParseState) (res : Standup.ParsedStandupContent)
    (hHF : st.headerFound = true) (hIT : st.inTodayEntry = false)
    (hnm : Standup.isTodayEntry d l = false) (hidx : ¬(i < total - 1)) :
    Standup.processLine d l i total st res =
      ({ st with currentEntry := st.currentEntry ++ [l] }, res) := by
  unfold Standup.processLine Standup.shouldSkipLine
  simp [hHF, hIT, hnm, hidx]

/-- Processing a blank interior line after the header and outside the matched
section drops it. -/
theorem processLine_blank (d l : String) (i total : Nat)
    (st : Standup.ParseState) (res : Standup.ParsedStandupContent)
    (hHF : st.headerFound = true) (hIT : st.inTodayEntry = false)
    (hb : (strTrimSpace l == "") = true) (hidx : i < total - 1) :
    Standup.processLine d l i total st res = (st, res) := by
  unfold Standup.processLine Standup.shouldSkipLine
  simp [hHF, hIT, hb, hidx]

/-- Running the parser over a run of interior non-heading lines (after the header,
outside the matched section) retains exactly the non-blank ones, in order. -/
theorem parseLines_run (d : String) (total : Nat) (ls : List String) :
    ∀ (i : Nat) (st : Standup.ParseState) (res : Standup.ParsedStandupContent),
    st.headerFound = true → st.inTodayEntry = false →
    (∀ l ∈ ls, Standup.isTodayEntry d l = false) →
    i + ls.length ≤ total - 1 →
    Standup.parseLines d total i ls (st, res) =
      ({ st with currentEntry := st.currentEntry ++
        ls.filter (fun l => !(strTrimSpace l == "")) }, res) := by
  induction ls with
  | nil =>
    intro i st res hHF hIT _ _
    simp [Standup.parseLines]
  | cons l rest ih =>
    intro i st res hHF hIT hno hlen
    rw [Standup.parseLines]
    simp only [List.length_cons] at hlen
    by_cases hb : (strTrimSpace l == "") = true
    · rw [show Standup.processLine d l i total st res = (st, res) from
        processLine_blank d l i total st res hHF hIT hb (by omega)]
      rw [ih (i + 1) st res hHF hIT
        (fun x hx => hno x (List.mem_cons_of_mem _ hx)) (by omega)]
      simp [List.filter_cons, hb]
    · rw [Bool.not_eq_true] at hb
      rw [show Standup.processLine d l i total st res =
          ({ st with currentEntry := st.currentEntry ++ [l] }, res) from
        processLine_step d l i total st res hHF hIT
          (hno l (List.mem_cons_self l rest)) hb]
      rw [ih (i + 1) { st with currentEntry := st.currentEntry ++ [l] } res hHF hIT
        (fun x hx => hno x (List.mem_cons_of_mem _ hx)) (by omega)]
      simp [List.filter_cons, hb]

/-- Trimming a builder block consisting of non-blank lines already trimmed at the
two ends, followed by one trailing blank line, drops exactly that blank line. -/
theorem trimBlock_concat (f : String) (mid : List String) (lastL : String)
    (hf : (strTrimSpace f == "") = false) (hfl : strTrimLeft f = f)
    (hmid : ∀ l ∈ mid, (strTrimSpace l == "") = false)
    (hlast : (strTrimSpace lastL == "") = false) (hlr : strTrimRight lastL = lastL) :
    Standup.trimBlock ((f :: (mid ++ [lastL])) ++ [""]) = f :: (mid ++ [lastL]) := by
  unfold Standup.trimBlock
  have h1 : ((f :: (mid ++ [lastL])) ++ [""]).dropWhile
      (fun l => strTrimSpace l == "") = f :: ((mid ++ [lastL]) ++ [""]) := by
    rw [List.cons_append, List.dropWhile_cons, hf]
    simp
  rw [h1]
  dsimp only
  have h2 : ((mid ++ [lastL]) ++ [""]).reverse = "" :: lastL :: mid.reverse := by
    simp
  rw [h2]
  have h3 : ("" :: lastL :: mid.reverse).dropWhile (fun l => strTrimSpace l == "") =
      lastL :: mid.reverse := by
    rw [List.dropWhile_cons]
    simp only [show (strTrimSpace "" == "") = true from by decide, if_true]
    rw [List.dropWhile_cons, hlast]
    simp
  rw [h3]
  simp [hfl, hlr]

/-- Every line of a trimmed block fails the date test, provided every accumulated
line fails it both as-is and after a left trim. -/
theorem trimBlock_noDate (d : String) (ls : List String)
    (h : ∀ l ∈ ls, Standup.isTodayEntry d l = false ∧
      Standup.isTodayEntry d (strTrimLeft l) = false) :
    ∀ x ∈ Standup.trimBlock ls, Standup.isTodayEntry d x = false := by
  unfold Standup.trimBlock
  cases hdrop : ls.dropWhile (fun l => strTrimSpace l == "") with
  | nil =>
    intro x hx
    simp at hx
  | cons f rest =>
    dsimp only
    have hsub : ∀ y ∈ f :: rest, y ∈ ls := by
      intro y hy
      exact (List.dropWhile_sublist _).subset (hdrop ▸ hy)
    have hmemf : f ∈ ls := hsub f (List.mem_cons_self f rest)
    have hrest : ∀ y ∈ rest, y ∈ ls := fun y hy => hsub y (List.mem_cons_of_mem f hy)
    cases hdrop2 : rest.reverse.dropWhile (fun l => strTrimSpace l == "") with
    | nil =>
      dsimp only
      intro x hx
      rw [List.mem_singleton] at hx
      subst hx
      cases hc : Standup.isTodayEntry d (strTrimSpace f) with
      | false => rfl
      | true =>
        have := isTodayEntry_of_trimSpace d f hc
        rw [(h f hmemf).2] at this
        exact absurd this Bool.false_ne_true
    | cons lastL revMid =>
      dsimp only
      have hsub2 : ∀ y ∈ lastL :: revMid, y ∈ ls := by
        intro y hy
        exact hrest y (List.mem_reverse.mp ((List.dropWhile_sublist _).subset
          (hdrop2 ▸ hy)))
      intro x hx
      rcases List.mem_cons.mp hx with rfl | hx
      · exact (h f hmemf).2
      rw [List.mem_reverse] at hx
      rcases List.mem_cons.mp hx with rfl | hx
      · cases hc : Standup.isTodayEntry d (strTrimRight lastL) with
        | false => rfl
        | true =>
          have := isTodayEntry_of_trimRight d lastL hc
          rw [(h lastL (hsub2 lastL (List.mem_cons_self _ _))).1] at this
          exact absurd this Bool.false_ne_true
      · exact (h x (hsub2 x (List.mem_cons_of_mem _ hx))).1

/-- The parse loop splits over list append. -/
theorem parseLines_append (d : String) (total : Nat) (xs ys : List String) :
    ∀ (i : Nat) (acc : Standup.ParseState × Standup.ParsedStandupContent),
    Standup.parseLines d total i (xs ++ ys) acc =
      Standup.parseLines d total (i + xs.length) ys (Standup.parseLines d total i xs acc) := by
  induction xs with
  | nil => intro i acc; simp [Standup.parseLines]
  | cons x xs ih =>
    intro i acc
    rw [List.cons_append, Standup.parseLines, Standup.parseLines, ih]
    simp [Nat.add_assoc, Nat.add_comm 1 xs.length]

/-- `processLine` never touches the collected blocks. -/
theorem processLine_otherEntries (d l : String) (i total : Nat)
    (st : Standup.ParseState) (res : Standup.ParsedStandupContent) :
    (Standup.processLine d l i total st res).2.otherEntries = res.otherEntries := by
  unfold Standup.processLine
  dsimp only
  repeat' split
  all_goals rfl

/-- The parse loop never touches the collected blocks. -/
theorem parseLines_otherEntries (d : String) (total : Nat) (ls : List String) :
    ∀ (i : Nat) (acc : Standup.ParseState × Standup.ParsedStandupContent),
    (Standup.parseLines d total i ls acc).2.otherEntries = acc.2.otherEntries := by
  induction ls with
  | nil => intro i acc; rw [Standup.parseLines]
  | cons l rest ih =>
    intro i acc
    rw [Standup.parseLines, ih]
    exact processLine_otherEntries d l i total acc.1 acc.2

/-- One parser step preserves the twin facts that no collected line matches the
date test (before or after a left trim) and that any captured header line passes
the header-prefix test. -/
theorem processLine_inv (d l : String) (i total : Nat)
    (st : Standup.ParseState) (res : Standup.ParsedStandupContent)
    (hcur : ∀ x ∈ st.currentEntry, Standup.isTodayEntry d x = false ∧
      Standup.isTodayEntry d (strTrimLeft x) = false)
    (hhdr : res.header = "" ∨ strStartsWith res.header "# " = true)
    (hl : Standup.isTodayEntry d (strTrimLeft l) = true →
      Standup.isTodayEntry d l = true) :
    (∀ x ∈ (Standup.processLine d l i total st res).1.currentEntry,
      Standup.isTodayEntry d x = false ∧
      Standup.isTodayEntry d (strTrimLeft x) = false) ∧
    ((Standup.processLine d l i total st res).2.header = "" ∨
      strStartsWith (Standup.processLine d l i total st res).2.header "# " = true) := by
  by_cases hh : (Standup.isHeader l && !st.headerFound) = true
  · simp only [Standup.processLine, hh, if_true]
    refine ⟨hcur, Or.inr ?_⟩
    have h2 := hh
    simp only [Bool.and_eq_true, Standup.isHeader] at h2
    exact h2.1.1
  · by_cases hskip : Standup.shouldSkipLine l i total st = true
    · simp only [Standup.processLine, hh, Bool.false_eq_true, if_false, hskip, if_true]
      exact ⟨hcur, hhdr⟩
    · by_cases htoday : Standup.isTodayEntry d l = true
      · simp only [Standup.processLine, hh, Bool.false_eq_true, if_false,
          hskip, htoday, if_true]
        exact ⟨hcur, hhdr⟩
      · rw [Bool.not_eq_true] at htoday
        have htl : Standup.isTodayEntry d (strTrimLeft l) = false := by
          cases hc : Standup.isTodayEntry d (strTrimLeft l) with
          | false => rfl
          | true => rw [hl hc] at htoday; exact absurd htoday (by simp)
        have happ : ∀ x ∈ st.currentEntry ++ [l],
            Standup.isTodayEntry d x = false ∧
            Standup.isTodayEntry d (strTrimLeft x) = false := by
          intro x hx
          rcases List.mem_append.mp hx with hx | hx
          · exact hcur x hx
          · rw [List.mem_singleton] at hx
            subst hx
            exact ⟨htoday, htl⟩
        simp only [Standup.processLine, hh, Bool.false_eq_true, if_false,
          hskip, htoday]
        by_cases hend : (st.inTodayEntry && Standup.isEntryEnd l) = true
        · simp only [hend, if_true, Bool.true_and]
          by_cases hsep : (l == "---") = true
          · simp only [hsep, if_true]
            exact ⟨hcur, hhdr⟩
          · simp only [hsep, Bool.false_eq_true, if_false, Bool.not_false,
              Bool.true_and]
            by_cases hhf : st.headerFound = true
            · simp only [hhf, if_true]
              exact ⟨happ, hhdr⟩
            · simp only [hhf, Bool.false_eq_true, if_false]
              exact ⟨hcur, hhdr⟩
        · simp only [hend, Bool.false_eq_true, if_false, Bool.false_and,
            Bool.false_eq_true, if_false]
          by_cases hit : st.inTodayEntry = true
          · simp only [hit, Bool.not_true, Bool.false_and, Bool.false_eq_true, if_false]
            exact ⟨hcur, hhdr⟩
          · rw [Bool.not_eq_true] at hit
            simp only [hit, Bool.not_false, Bool.true_and]
            by_cases hhf : st.headerFound = true
            · simp only [hhf, if_true]
              exact ⟨happ, hhdr⟩
            · simp only [hhf, Bool.false_eq_true, if_false]
              exact ⟨hcur, hhdr⟩

/-- The parse loop preserves the twin invariants of `processLine_inv`. -/
theorem parseLines_inv (d : String) (total : Nat) (ls : List String) :
    ∀ (i : Nat) (st : Standup.ParseState) (res : Standup.ParsedStandupContent),
    (∀ x ∈ st.currentEntry, Standup.isTodayEntry d x = false ∧
      Standup.isTodayEntry d (strTrimLeft x) = false) →
    (res.header = "" ∨ strStartsWith res.header "# " = true) →
    (∀ l ∈ ls, Standup.isTodayEntry d (strTrimLeft l) = true →
      Standup.isTodayEntry d l = true) →
    (∀ x ∈ (Standup.parseLines d total i ls (st, res)).1.currentEntry,
      Standup.isTodayEntry d x = false ∧
      Standup.isTodayEntry d (strTrimLeft x) = false) ∧
    ((Standup.parseLines d total i ls (st, res)).2.header = "" ∨
      strStartsWith (Standup.parseLines d total i ls (st, res)).2.header "# " = true) := by
  induction ls with
  | nil =>
    intro i st res hcur hhdr _
    rw [Standup.parseLines]
    exact ⟨hcur, hhdr⟩
  | cons l rest ih =>
    intro i st res hcur hhdr hls
    rw [Standup.parseLines]
    have hstep := processLine_inv d l i total st res hcur hhdr
      (hls l (List.mem_cons_self l rest))
    exact ih (i + 1) (Standup.processLine d l i total st res).1
      (Standup.processLine d l i total st res).2 hstep.1 hstep.2
      (fun x hx => hls x (List.mem_cons_of_mem _ hx))

/-- `finalizeEntry` keeps the captured header. -/
theorem finalizeEntry_header (st : Standup.ParseState)
    (res : Standup.ParsedStandupContent) :
    (Standup.finalizeEntry st res).header = res.header := by
  unfold Standup.finalizeEntry
  split <;> rfl

/-- Every block of a finalised parse is either inherited or the trimmed
accumulated block. -/
theorem finalizeEntry_blocks (st : Standup.ParseState)
    (res : Standup.ParsedStandupContent) :
    ∀ b ∈ (Standup.finalizeEntry st res).otherEntries,
      b ∈ res.otherEntries ∨ b = Standup.trimBlock st.currentEntry := by
  unfold Standup.finalizeEntry
  split
  · intro b hb
    rcases List.mem_append.mp hb with hb | hb
    · exact Or.inl hb
    · rw [List.mem_singleton] at hb
      exact Or.inr hb
  · intro b hb
    exact Or.inl hb

/-- Assembling a document around a parse whose header is header-shaped and whose
blocks carry no date-heading line leaves exactly one date-heading line: the one of
the freshly rendered section. -/
theorem assembleContent_count (parsed : Standup.ParsedStandupContent)
    (e : Standup.Entry) (u : String)
    (hB : Standup.isTodayEntry e.date e.blockers = false)
    (hhdr : parsed.header = "" ∨ strStartsWith parsed.header "# " = true)
    (hblocks : ∀ b ∈ parsed.otherEntries, ∀ x ∈ b,
      Standup.isTodayEntry e.date x = false) :
    ((Standup.assembleContent parsed e u).filter
      (fun l => Standup.isTodayEntry e.date l)).length = 1 := by
  have hblank : Standup.isTodayEntry e.date "" = false :=
    isTodayEntry_of_not_hh e.date "" (by decide)
  have hhdrline : Standup.isTodayEntry e.date
      (if parsed.header != "" then parsed.header
       else "# " ++ u ++ Standup.headerMark) = false := by
    by_cases hcond : (parsed.header != "") = true
    · rw [if_pos hcond]
      rcases hhdr with h | h
      · rw [h] at hcond
        exact absurd hcond (by decide)
      · exact isTodayEntry_false_of_header e.date _ h
    · rw [if_neg hcond]
      exact isTodayEntry_false_of_header e.date _
        (strStartsWith_append_assoc "# " u Standup.headerMark)
  have hflat : ((parsed.otherEntries.filter (fun b => b != [])).flatten).filter
      (fun l => Standup.isTodayEntry e.date l) = [] := by
    rw [List.filter_eq_nil_iff]
    intro a ha
    obtain ⟨b, hb, hab⟩ := List.mem_flatten.mp ha
    rw [hblocks b (List.mem_of_mem_filter hb) a hab]
    exact Bool.false_ne_true
  unfold Standup.assembleContent
  rw [List.filter_cons, List.filter_cons]
  simp only [hhdrline, hblank, Bool.false_eq_true, if_false]
  rw [show Standup.formatEntry e ++ [""] ++
      (parsed.otherEntries.filter (fun b => b != [])).flatten ++ [""] =
      Standup.formatEntry e ++ ([""] ++
      ((parsed.otherEntries.filter (fun b => b != [])).flatten ++ [""])) by simp]
  rw [List.filter_append, filter_formatEntry e hB, List.filter_append,
    List.filter_append, hflat]
  simp [hblank]

/-- Counterexample for C1: a blockers line spelling a level-2 heading with the
date token, or a whitespace-indented date heading in the existing document,
leaves two sections headed by the date token after the merge. -/
theorem counterexample_C1 :
    ((Standup.buildUpdatedContent ["# Alice" ++ apos ++ "s Standups", ""]
      ⟨"2024-01-15", ["a"], ["b"], "## 2024-01-15"⟩ "Alice").filter
      (fun l => Standup.isTodayEntry "2024-01-15" l)).length = 2 ∧
    ((Standup.buildUpdatedContent
      ["# Alice" ++ apos ++ "s Standups", "  ## 2024-01-15 old", ""]
      ⟨"2024-01-15", ["a"], ["b"], "None"⟩ "Alice").filter
      (fun l => Standup.isTodayEntry "2024-01-15" l)).length = 2 := by
  constructor <;> decide

/-- Claim C1 (amended): merging an entry yields a document with exactly one
section heading bearing the date token, provided the blockers line of the entry is
not itself a level-2 heading containing the token and no line of the existing
document becomes such a heading only after stripping leading whitespace. -/
theorem claim_C1 (L : List String) (e : Standup.Entry) (u : String)
    (hB : Standup.isTodayEntry e.date e.blockers = false)
    (hL : ∀ l ∈ L, Standup.isTodayEntry e.date (strTrimLeft l) = true →
      Standup.isTodayEntry e.date l = true) :
    ((Standup.buildUpdatedContent L e u).filter
      (fun l => Standup.isTodayEntry e.date l)).length = 1 := by
  have hblank : Standup.isTodayEntry e.date "" = false :=
    isTodayEntry_of_not_hh e.date "" (by decide)
  unfold Standup.buildUpdatedContent
  by_cases hfresh : (L == [""]) = true
  · rw [if_pos hfresh]
    unfold Standup.buildNewFileContent
    rw [List.filter_cons, List.filter_cons]
    simp only [isTodayEntry_false_of_header e.date _
      (strStartsWith_append_assoc "# " u Standup.headerMark), hblank,
      Bool.false_eq_true, if_false]
    rw [List.filter_append, filter_formatEntry e hB]
    simp [hblank]
  · rw [if_neg hfresh]
    unfold Standup.parse
    have hinv := parseLines_inv e.date L.length L 0 ⟨[], false, false⟩ ⟨"", []⟩
      (fun x hx => absurd hx (List.not_mem_nil x)) (Or.inl rfl) hL
    have hoth := parseLines_otherEntries e.date L.length L 0
      (⟨[], false, false⟩, ⟨"", []⟩)
    refine assembleContent_count _ e u hB ?_ ?_
    · rw [finalizeEntry_header]
      exact hinv.2
    · intro b hb x hx
      rcases finalizeEntry_blocks _ _ b hb with hcase | hcase
      · rw [hoth] at hcase
        exact absurd hcase (List.not_mem_nil b)
      · subst hcase
        exact trimBlock_noDate e.date _ hinv.1 x hx

/-- Witness for C1 at a concrete three-line document and entry. -/
theorem claim_C1_witness :
    ((Standup.buildUpdatedContent
      ["# Alice" ++ apos ++ "s Standups", "", "## 2024-01-10 old stuff"]
      ⟨"2024-01-15", ["a"], [], "None"⟩ "Alice").filter
      (fun l => Standup.isTodayEntry "2024-01-15" l)).length = 1 :=
  claim_C1 ["# Alice" ++ apos ++ "s Standups", "", "## 2024-01-10 old stuff"]
    ⟨"2024-01-15", ["a"], [], "None"⟩ "Alice" (by decide) (by decide)

/-- A string whose character list starts with a non-whitespace character is fixed
by the left trim. -/
theorem strTrimLeft_of_data (l : String) (c : Char) (rest : List Char)
    (h : l.data = c :: rest) (hc : c.isWhitespace = false) :
    strTrimLeft l = l := by
  have hl : l = ⟨c :: rest⟩ := String.ext h
  rw [hl]
  exact strTrimLeft_of_head c hc ⟨rest⟩

/-- A string with a first character is not the empty string under `bne`. -/
theorem str_bne_empty_of_data (l : String) (c : Char) (rest : List Char)
    (h : l.data = c :: rest) : (l != "") = true := by
  rw [bne_iff_ne]
  intro he
  rw [he] at h
  exact absurd h (by simp)

set_option maxRecDepth 4096 in
/-- Counterexample for C2: merging a later date does not retain the earlier
section verbatim - its interior blank lines are dropped (the heading is followed
directly by the next label in the output), because every blank line after the
header except the very last line of the document is skipped. -/
theorem counterexample_C2 :
    ¬ (Standup.formatEntry ⟨"2024-01-31", ["x"], ["y"], "None"⟩ <:+:
      Standup.buildUpdatedContent
        (Standup.buildNewFileContent ⟨"2024-01-31", ["x"], ["y"], "None"⟩ "Alice")
        ⟨"2024-02-01", ["z"], [], "None"⟩ "Alice") ∧
    (["## 2024-01-31", "**Yesterday:**"] <:+:
      Standup.buildUpdatedContent
        (Standup.buildNewFileContent ⟨"2024-01-31", ["x"], ["y"], "None"⟩ "Alice")
        ⟨"2024-02-01", ["z"], [], "None"⟩ "Alice") ∧
    ("" ∈ Standup.formatEntry ⟨"2024-01-31", ["x"], ["y"], "None"⟩) := by
  refine ⟨by decide, by decide, by decide⟩

/-- Claim C2 (amended): merging a later date into a freshly written document keeps
the header, places the new section immediately after it, and retains the earlier
section before the trailing blank - reduced to its non-blank lines in order, since
every blank line after the header except the last line of the document is dropped. -/
theorem claim_C2 (e1 e2 : Standup.Entry) (u : String)
    (h1 : Standup.isTodayEntry e2.date ("## " ++ e1.date) = false)
    (h2 : Standup.isTodayEntry e2.date e1.blockers = false) :
    Standup.buildUpdatedContent (Standup.buildNewFileContent e1 u) e2 u =
      ("# " ++ u ++ Standup.headerMark) :: "" ::
        (Standup.formatEntry e2 ++ [""] ++
         (Standup.formatEntry e1).filter (fun l => !(strTrimSpace l == "")) ++ [""]) := by
  have hnm : ∀ l ∈ Standup.formatEntry e1, Standup.isTodayEntry e2.date l = false :=
    formatEntry_noMatch e2.date e1 h1 h2
  have hhead_data : ("## " ++ e1.date).data = '#' :: ('#' :: (' ' :: e1.date.data)) := by
    simp [String.data_append]
  have hhdr_data : ("# " ++ u ++ Standup.headerMark).data =
      '#' :: (' ' :: (u.data ++ Standup.headerMark.data)) := by
    simp [String.data_append]
  have hXshape : (Standup.formatEntry e1).filter (fun l => !(strTrimSpace l == "")) =
      ("## " ++ e1.date) ::
        (((Standup.formatSection "Yesterday" e1.yesterday "Nothing to report" ++
           Standup.formatSection "Today" e1.today "Nothing planned" ++
           ["**Blockers:**", e1.blockers, ""]).filter
             (fun l => !(strTrimSpace l == ""))) ++ ["---"]) := by
    unfold Standup.formatEntry
    rw [List.filter_cons, List.filter_cons]
    simp only [strTrimSpace_ne_of_data _ _ _ hhead_data (by decide),
      show (strTrimSpace "" == "") = true from by decide, Bool.not_false,
      Bool.not_true, if_true, Bool.false_eq_true, if_false]
    rw [show Standup.formatSection "Yesterday" e1.yesterday "Nothing to report" ++
        Standup.formatSection "Today" e1.today "Nothing planned" ++
        ["**Blockers:**", e1.blockers, "", "---"] =
        (Standup.formatSection "Yesterday" e1.yesterday "Nothing to report" ++
         Standup.formatSection "Today" e1.today "Nothing planned" ++
         ["**Blockers:**", e1.blockers, ""]) ++ ["---"] by simp]
    rw [List.filter_append]
    simp
    decide
  set X := (Standup.formatEntry e1).filter (fun l => !(strTrimSpace l == "")) with hX
  have hne : ¬((Standup.buildNewFileContent e1 u == [""]) = true) := by
    intro hc
    rw [beq_iff_eq] at hc
    unfold Standup.buildNewFileContent at hc
    simp at hc
  unfold Standup.buildUpdatedContent
  rw [if_neg hne]
  unfold Standup.parse
  have htot : (Standup.buildNewFileContent e1 u).length =
      (Standup.formatEntry e1).length + 4 := by
    simp [Standup.buildNewFileContent]
  rw [htot]
  set n := (Standup.formatEntry e1).length with hn
  have hstep0 : Standup.processLine e2.date ("# " ++ u ++ Standup.headerMark) 0 (n + 4)
      ⟨[], false, false⟩ ⟨"", []⟩ =
      (⟨[], false, true⟩, ⟨"# " ++ u ++ Standup.headerMark, []⟩) := by
    unfold Standup.processLine
    simp [isHeader_default u]
  have hparse : Standup.parseLines e2.date (n + 4) 0
      (Standup.buildNewFileContent e1 u) (⟨[], false, false⟩, ⟨"", []⟩) =
      (⟨X ++ [""], false, true⟩, ⟨"# " ++ u ++ Standup.headerMark, []⟩) := by
    unfold Standup.buildNewFileContent
    rw [Standup.parseLines]
    dsimp only
    rw [hstep0, Standup.parseLines]
    dsimp only
    rw [processLine_blank e2.date "" 1 (n + 4) _ _ rfl rfl (by decide) (by omega)]
    rw [parseLines_append]
    rw [parseLines_run e2.date (n + 4) (Standup.formatEntry e1) 2
      ⟨[], false, true⟩ ⟨"# " ++ u ++ Standup.headerMark, []⟩ rfl rfl hnm (by omega)]
    dsimp only
    rw [Standup.parseLines]
    dsimp only
    rw [processLine_blank e2.date "" (2 + n) (n + 4) _ _ rfl rfl (by decide) (by omega)]
    rw [Standup.parseLines]
    dsimp only
    rw [processLine_last e2.date "" (2 + n + 1) (n + 4) _ _ rfl rfl
      (isTodayEntry_of_not_hh e2.date "" (by decide)) (by omega)]
    rw [Standup.parseLines]
    simp [hX]
  rw [hparse]
  dsimp only
  unfold Standup.finalizeEntry
  rw [if_pos (by simp)]
  have htrim : Standup.trimBlock (X ++ [""]) = X := by
    rw [hXshape]
    rw [show (("## " ++ e1.date) ::
        (((Standup.formatSection "Yesterday" e1.yesterday "Nothing to report" ++
           Standup.formatSection "Today" e1.today "Nothing planned" ++
           ["**Blockers:**", e1.blockers, ""]).filter
             (fun l => !(strTrimSpace l == ""))) ++ ["---"])) ++ [""] =
        (("## " ++ e1.date) ::
        (((Standup.formatSection "Yesterday" e1.yesterday "Nothing to report" ++
           Standup.formatSection "Today" e1.today "Nothing planned" ++
           ["**Blockers:**", e1.blockers, ""]).filter
             (fun l => !(strTrimSpace l == ""))) ++ ["---"])) ++ [""] from rfl]
    refine trimBlock_concat ("## " ++ e1.date) _ "---"
      (strTrimSpace_ne_of_data _ _ _ hhead_data (by decide))
      (strTrimLeft_of_data _ _ _ hhead_data (by decide)) ?_ (by decide) (by decide)
    intro l hl
    have := List.of_mem_filter hl
    simpa using this
  rw [htrim]
  unfold Standup.assembleContent
  rw [if_pos (str_bne_empty_of_data _ _ _ hhdr_data)]
  congr 1
  congr 1
  have hXcons : (X != []) = true := by
    rw [hXshape]
    simp
  simp [hXcons]

set_option maxRecDepth 4096 in
/-- Witness for claim C2 at a concrete pair of entries. -/
theorem claim_C2_witness :
    Standup.isTodayEntry "2024-02-01" ("## " ++ "2024-01-31") = false ∧
    Standup.isTodayEntry "2024-02-01" "None" = false ∧
    Standup.buildUpdatedContent
        (Standup.buildNewFileContent ⟨"2024-01-31", ["x"], ["y"], "None"⟩ "Alice")
        ⟨"2024-02-01", ["z"], [], "None"⟩ "Alice" =
      ("# " ++ "Alice" ++ Standup.headerMark) :: "" ::
        (Standup.formatEntry ⟨"2024-02-01", ["z"], [], "None"⟩ ++ [""] ++
         (Standup.formatEntry ⟨"2024-01-31", ["x"], ["y"], "None"⟩).filter
           (fun l => !(strTrimSpace l == "")) ++ [""]) :=
  ⟨by decide, by decide,
    claim_C2 ⟨"2024-01-31", ["x"], ["y"], "None"⟩ ⟨"2024-02-01", ["z"], [], "None"⟩
      "Alice" (by decide) (by decide)⟩
